import Mathlib

/-!
Verification of the tidefall game server (src/api).

The Python modules are shallowly embedded: module-level mutable dicts become
association lists threaded through pure functions, socket broadcasts and
scheduled background tasks become explicit output lists, and float
arithmetic is modelled with exact rationals.  Python dicts preserve
insertion order; the association-list operations below mirror that
(assignment to an existing key keeps its place, a new key is appended).
-/

set_option autoImplicit false

namespace Tidefall

/-! ### Association lists (Python dict model) -/

def alookup {α : Type} (k : String) : List (String × α) → Option α
  | [] => none
  | (k', v) :: rest => if k' = k then some v else alookup k rest

def aset {α : Type} (k : String) (v : α) : List (String × α) → List (String × α)
  | [] => [(k, v)]
  | (k', v') :: rest => if k' = k then (k, v) :: rest else (k', v') :: aset k v rest

def aerase {α : Type} (k : String) : List (String × α) → List (String × α)
  | [] => []
  | (k', v') :: rest => if k' = k then rest else (k', v') :: aerase k rest

def akeys {α : Type} (l : List (String × α)) : List String := l.map Prod.fst

def amem {α : Type} (k : String) (l : List (String × α)) : Bool :=
  (alookup k l).isSome

/-! ### simulations.py -/

/-- Three-dimensional vector / position with rational coordinates
(models the Python `{x, y, z}` dicts used for positions and directions). -/
structure Vec3 where
  x : ℚ
  y : ℚ
  z : ℚ
deriving DecidableEq

/-- `simulate_projectile` from simulations.py: position after `time_elapsed`
seconds, with the vertical component offset by the gravity term. -/
def simulate_projectile (initial_position initial_velocity : Vec3)
    (gravity time_elapsed : ℚ) : Vec3 :=
  { x := initial_position.x + initial_velocity.x * time_elapsed
    y := initial_position.y + initial_velocity.y * time_elapsed
          - (1/2) * gravity * time_elapsed * time_elapsed
    z := initial_position.z + initial_velocity.z * time_elapsed }

/-- Result record of `simulate_cannonball`: new position and current velocity. -/
structure CannonballSim where
  position : Vec3
  velocity : Vec3
deriving DecidableEq

/-- `simulate_cannonball` from simulations.py. -/
def simulate_cannonball (initial_position direction : Vec3)
    (speed gravity time_elapsed : ℚ) : CannonballSim :=
  let initial_velocity : Vec3 :=
    { x := direction.x * speed, y := direction.y * speed, z := direction.z * speed }
  { position := simulate_projectile initial_position initial_velocity gravity time_elapsed
    velocity :=
      { x := initial_velocity.x
        y := initial_velocity.y - gravity * time_elapsed
        z := initial_velocity.z } }

/-- Squared Euclidean distance between two positions.  `calculate_distance`
in the source returns `sqrt` of this; every comparison the claims touch is
of the form `calculate_distance p q ≤ r` or `> r` with `r ≥ 0`, which is
equivalent to the corresponding comparison of `distSq` with `r²`. -/
def distSq (p q : Vec3) : ℚ :=
  (p.x - q.x) * (p.x - q.x) + (p.y - q.y) * (p.y - q.y) + (p.z - q.z) * (p.z - q.z)

/-! ### Shared player model

Python player records are dicts whose keys may be absent; the fields the
claims touch are modelled as `Option`s and read with the same defaults the
source uses (`.get('active', False)`, `.get('health', DEFAULT_HEALTH)`).
Claim-irrelevant keys (name, color, fishCount, money, firebase_uid) are
omitted. -/

/-- Cached position as stored by `handle_position_update` in app.py: the
handler validates `x` and `z` but not `y`, so the stored `y` may be the
Python `None` (here `none`). -/
structure CachedPos where
  x : ℚ
  y : Option ℚ
  z : ℚ
deriving DecidableEq

/-- A player record in the in-memory `players` cache. -/
structure Player where
  health : Option ℚ
  active : Option Bool
  position : Option CachedPos
  rotation : Option ℚ
  mode : Option String
  last_update : Option ℚ
  monsterKills : Option ℤ
deriving DecidableEq

/-- Sample player record used by concrete witnesses. -/
def mkPlayer (h : ℚ) (act : Bool) : Player :=
  { health := some h, active := some act, position := none, rotation := none,
    mode := none, last_update := none, monsterKills := none }

/-- Socket.IO broadcasts emitted by the handlers. -/
inductive Broadcast where
  | player_defeated (player_id : String) (killer_id : Option String)
  | player_respawned (player_id : String) (health : ℚ)
  | cannon_fired (id : String) (position direction : Option Vec3)
  | cannon_hit (id : String) (damage : ℚ) (hitPosition : Option Vec3)
  | cannon_hit_success (hit_player_id : String)
  | harpoon_fired_broadcast (harpoon_id owner_id : String) (position direction : Vec3)
      (speed : ℚ)
  | player_moved (id : String) (position : CachedPos) (rotation : Option ℚ)
      (mode : Option String)
deriving DecidableEq

abbrev Players := List (String × Player)

/-! ### player_handler.py -/

def DEFAULT_HEALTH : ℚ := 100

/-- `handle_player_death`: emits one `player_defeated` broadcast and schedules
one `delayed_respawn` background task with a 3-second delay; a no-op (with a
warning log) for an unknown player.  Returns (broadcasts, scheduled timers as
(player_id, delay_seconds) pairs). -/
def handle_player_death (players : Players) (player_id : String)
    (killer_id : Option String) : List Broadcast × List (String × ℚ) :=
  if amem player_id players then
    ([Broadcast.player_defeated player_id killer_id], [(player_id, 3)])
  else
    ([], [])

/-- Result of `damage_player`: the updated cache, the broadcasts emitted, the
respawn timers scheduled, and the returned kill flag. -/
structure DamageResult where
  players : Players
  broadcasts : List Broadcast
  timers : List (String × ℚ)
  killed : Bool
deriving DecidableEq

/-- `damage_player` from player_handler.py. -/
def damage_player (players : Players) (player_id : String) (damage_amount : ℚ)
    (source_id : Option String) : DamageResult :=
  match alookup player_id players with
  | none => ⟨players, [], [], false⟩
  | some pl =>
    if pl.active.getD false = false then ⟨players, [], [], false⟩
    else
      let current_health := pl.health.getD DEFAULT_HEALTH
      let new_health := max 0 (current_health - damage_amount)
      let players' := aset player_id { pl with health := some new_health } players
      if new_health ≤ 0 then
        let eff := handle_player_death players' player_id source_id
        ⟨players', eff.1, eff.2, true⟩
      else
        ⟨players', [], [], false⟩

/-- `respawn_player`: resets the player's health to `DEFAULT_HEALTH` and
emits one `player_respawned` broadcast.  The source indexes
`players[player_id]` without a membership check, so an unknown id raises
`KeyError`; this is modelled as `none`.  `delayed_respawn` sleeps for the
scheduled delay and then calls this function; nothing in the source can
cancel the scheduled task. -/
def respawn_player (players : Players) (player_id : String) :
    Option (Players × List Broadcast) :=
  match alookup player_id players with
  | none => none
  | some pl =>
    some (aset player_id { pl with health := some DEFAULT_HEALTH } players,
      [Broadcast.player_respawned player_id DEFAULT_HEALTH])

/-! ### projectile_manager.py (storage)

The tick loop is embedded further below; here only the projectile record
and `add_projectile`.  The `custom_data` kwargs dict is omitted (no claim
touches it), and the `socketio`-initialization guard of `add_projectile`
is omitted: it only wires the transport and cannot fail after startup. -/

/-- A projectile record as stored in the manager's `projectiles` dict. -/
structure Proj where
  id : String
  owner : String
  ptype : String
  initial_position : Vec3
  direction : Vec3
  speed : ℚ
  gravity : ℚ
  created_at : ℚ
  expires_at : ℚ
  position : Vec3
deriving DecidableEq

/-- Projectile id generated by `add_projectile` (the source interpolates
the creation time with 4 decimals; only its shape matters here). -/
def mkProjectileId (projectile_type owner_id : String) (t : ℚ) : String :=
  projectile_type ++ "_" ++ owner_id ++ "_" ++ toString t

/-- `add_projectile` from projectile_manager.py: creates and stores a new
projectile, returning its id and the updated table. -/
def add_projectile (projectiles : List (String × Proj)) (owner_id projectile_type : String)
    (initial_position direction : Vec3) (speed lifetime gravity now : ℚ) :
    String × List (String × Proj) :=
  let projectile_id := mkProjectileId projectile_type owner_id now
  let projectile_data : Proj :=
    { id := projectile_id, owner := owner_id, ptype := projectile_type,
      initial_position := initial_position, direction := direction,
      speed := speed, gravity := gravity, created_at := now,
      expires_at := now + lifetime, position := initial_position }
  (projectile_id, aset projectile_id projectile_data projectiles)

/-! ### cannon_handler.py -/

def CANNON_LIFETIME : ℚ := 3
def CANNON_DAMAGE : ℚ := 10
def CANNON_COOLDOWN : ℚ := 1/2

/-- A cannon projectile as stored in the handler's `cannons` dict.  The
position and direction are stored exactly as received from the client
(`data.get(...)`), so they may be absent. -/
structure Cannon where
  id : String
  owner : String
  position : Option Vec3
  direction : Option Vec3
  created_at : ℚ
  expires_at : ℚ
deriving DecidableEq

structure CannonState where
  players : Players
  player_cooldowns : List (String × ℚ)
  cannons : List (String × Cannon)
deriving DecidableEq

structure CannonFirePayload where
  player_id : Option String
  position : Option Vec3
  direction : Option Vec3
deriving DecidableEq

def mkCannonId (player_id : String) (t : ℚ) : String :=
  "cannon_" ++ player_id ++ "_" ++ toString t

/-- The fall-through part of `handle_cannon_fire` once the cooldown gate has
passed: record the cooldown, store the projectile, broadcast. -/
def cannonFireAccept (st : CannonState) (now : ℚ) (player_id : String)
    (data : CannonFirePayload) : CannonState × List Broadcast :=
  let player_cooldowns' := aset player_id now st.player_cooldowns
  let cannon_id := mkCannonId player_id now
  let cannon_data : Cannon :=
    { id := cannon_id, owner := player_id, position := data.position,
      direction := data.direction, created_at := now,
      expires_at := now + CANNON_LIFETIME }
  ({ st with
      player_cooldowns := player_cooldowns',
      cannons := aset cannon_id cannon_data st.cannons },
    [Broadcast.cannon_fired player_id data.position data.direction])

/-- `handle_cannon_fire` from cannon_handler.py.  Note what the source does
NOT do: it never reads the player's `active` flag and never validates or
normalizes the direction (the raw client dict is stored).  The Python
truthiness test `not player_id` also rejects the empty string. -/
def handle_cannon_fire (st : CannonState) (now : ℚ) (data : CannonFirePayload) :
    CannonState × List Broadcast :=
  match data.player_id with
  | none => (st, [])
  | some player_id =>
    if player_id = "" ∨ amem player_id st.players = false then (st, [])
    else
      match alookup player_id st.player_cooldowns with
      | some last_shot =>
        if now - last_shot < CANNON_COOLDOWN then (st, [])
        else cannonFireAccept st now player_id data
      | none => cannonFireAccept st now player_id data

/-- The victor bookkeeping at the start of `handle_player_defeat`: award a
kill when the victor is known and has a `monsterKills` counter. -/
def defeatKillsUpdate (players : Players) (victor_player_id : String) : Players :=
  match alookup victor_player_id players with
  | some vrec =>
    match vrec.monsterKills with
    | some k => aset victor_player_id { vrec with monsterKills := some (k + 1) } players
    | none => players
  | none => players

/-- `handle_player_defeat` from cannon_handler.py: award a kill to the
victor, then reset the defeated player's health to 100 and broadcast
(the broadcast payload uses the key `victor_id`). -/
def handle_player_defeat (players : Players) (defeated_player_id victor_player_id : String) :
    Players × List Broadcast :=
  let players₁ := defeatKillsUpdate players victor_player_id
  match alookup defeated_player_id players₁ with
  | some drec =>
    (aset defeated_player_id { drec with health := some 100 } players₁,
      [Broadcast.player_defeated defeated_player_id (some victor_player_id)])
  | none => (players₁, [])

structure CannonHitPayload where
  player_id : Option String
  cannon_id : Option String
  hit_player_id : Option String
  hit_position : Option Vec3
deriving DecidableEq

/-- `handle_cannon_hit` from cannon_handler.py: validate the reported hit,
subtract `CANNON_DAMAGE` from the hit player's health WITHOUT clamping,
hand a result of 0 or below to `handle_player_defeat`, notify the hit
player, and delete the cannon. -/
def handle_cannon_hit (st : CannonState) (now : ℚ) (data : CannonHitPayload) :
    CannonState × List Broadcast :=
  match data.cannon_id with
  | none => (st, [])
  | some cannon_id =>
    if cannon_id = "" then (st, [])
    else
      match alookup cannon_id st.cannons with
      | none => (st, [])
      | some cannon =>
        if data.player_id ≠ some cannon.owner then (st, [])
        else
          match data.hit_player_id with
          | none => (st, [])
          | some hit_player_id =>
            if hit_player_id = "" then (st, [])
            else
              match alookup hit_player_id st.players with
              | none => (st, [])
              | some hrec =>
                if now > cannon.expires_at then (st, [])
                else
                  let afterDamage : Players × List Broadcast :=
                    match hrec.health with
                    | some h =>
                      let players₁ :=
                        aset hit_player_id { hrec with health := some (h - CANNON_DAMAGE) }
                          st.players
                      if h - CANNON_DAMAGE ≤ 0 then
                        handle_player_defeat players₁ hit_player_id cannon.owner
                      else (players₁, [])
                    | none => (st.players, [])
                  ({ st with
                      players := afterDamage.1,
                      cannons := aerase cannon_id st.cannons },
                    afterDamage.2
                      ++ [Broadcast.cannon_hit cannon.owner CANNON_DAMAGE data.hit_position])

/-- `handle_cannon_collision` from cannon_handler.py: notify owner and hit
player, subtract `CANNON_DAMAGE` without clamping when the hit player is
known and has a health key, and run the defeat path on a result of 0 or
below. -/
def handle_cannon_collision (players : Players) (cannon : Cannon) (hit_player_id : String) :
    Players × List Broadcast :=
  let head : List Broadcast :=
    [Broadcast.cannon_hit_success hit_player_id,
      Broadcast.cannon_hit cannon.owner CANNON_DAMAGE cannon.position]
  match alookup hit_player_id players with
  | some hrec =>
    match hrec.health with
    | some h =>
      let players₁ :=
        aset hit_player_id { hrec with health := some (h - CANNON_DAMAGE) } players
      if h - CANNON_DAMAGE ≤ 0 then
        let d := handle_player_defeat players₁ hit_player_id cannon.owner
        (d.1, head ++ d.2)
      else (players₁, head)
    | none => (players, head)
  | none => (players, head)

/-! ### harpoon_handler.py -/

def HARPOON_SPEED : ℚ := 80
def HARPOON_LIFETIME : ℚ := 2
def HARPOON_COOLDOWN : ℚ := 3/2

structure HarpoonState where
  players : Players
  player_harpoon_cooldowns : List (String × ℚ)
  projectiles : List (String × Proj)
deriving DecidableEq

structure HarpoonFirePayload where
  player_id : Option String
  position : Option Vec3
  direction : Option Vec3
deriving DecidableEq

/-- Squared norm of a vector. -/
def vecNormSq (v : Vec3) : ℚ := v.x * v.x + v.y * v.y + v.z * v.z

/-- `handle_harpoon_fire` from harpoon_handler.py.  The direction length is
`math.sqrt` of the squared norm; since ℚ is not closed under square roots
the model takes the square-root function as the parameter `sqrtFn`, and the
theorems pin `sqrtFn` to the mathematical square root at the point of use
(`sqrtFn s = 0` exactly for `s = 0`, `sqrtFn s * sqrtFn s = s`).  Like the
cannon handler, the source never reads the `active` flag.  The failure
branch `if not harpoon_id` after `add_projectile` is omitted: the generated
id is never empty. -/
def handle_harpoon_fire (sqrtFn : ℚ → ℚ) (st : HarpoonState) (now : ℚ)
    (data : HarpoonFirePayload) : HarpoonState × List Broadcast :=
  match data.player_id with
  | none => (st, [])
  | some player_id =>
    if player_id = "" ∨ amem player_id st.players = false then (st, [])
    else
      match data.position with
      | none => (st, [])
      | some position =>
        match data.direction with
        | none => (st, [])
        | some direction =>
          let dir_len := sqrtFn (vecNormSq direction)
          if dir_len = 0 then (st, [])
          else
            let normalized_direction : Vec3 :=
              { x := direction.x / dir_len, y := direction.y / dir_len,
                z := direction.z / dir_len }
            let last_fire_time := (alookup player_id st.player_harpoon_cooldowns).getD 0
            if now - last_fire_time < HARPOON_COOLDOWN then (st, [])
            else
              let cooldowns' := aset player_id now st.player_harpoon_cooldowns
              let res := add_projectile st.projectiles player_id "harpoon" position
                normalized_direction HARPOON_SPEED HARPOON_LIFETIME 0 now
              ({ st with player_harpoon_cooldowns := cooldowns', projectiles := res.2 },
                [Broadcast.harpoon_fired_broadcast res.1 player_id position
                  normalized_direction HARPOON_SPEED])

/-! ### app.py: the player-join cache update

Both branches of `handle_player_join` (existing and new player) put a
record in the cache whose `health` is 100 and whose `active` flag is True;
the remaining fields differ between the branches and are abstracted by
`base`. -/

def playerJoinCache (players : Players) (docid : String) (base : Player) : Players :=
  aset docid { base with health := some 100, active := some true } players

/-! ### app.py: handle_position_update -/

def DB_UPDATE_INTERVAL : ℚ := 2
def MIN_POSITION_UPDATE_DISTANCE : ℚ := 20

/-- Payload of the `update_position` socket event. -/
structure UPPayload where
  player_id : Option String
  x : Option ℚ
  y : Option ℚ
  z : Option ℚ
  rotation : Option ℚ
  mode : Option String
deriving DecidableEq

/-- The app-level state the position handler touches. -/
structure AppState where
  players : Players
  last_db_update : List (String × ℚ)
  last_db_positions : List (String × CachedPos)
deriving DecidableEq

/-- Result of one `handle_position_update` call: new state, the broadcasts
emitted, whether a durable Firestore write happened, and whether the
handler raised (a `TypeError` from `None` arithmetic). -/
structure PosUpdateResult where
  state : AppState
  broadcasts : List Broadcast
  wrote_db : Bool
  crashed : Bool
deriving DecidableEq

/-- `handle_position_update` from app.py.  The source validates only `x` and
`z` for `None` (`if x is None or z is None`), never `y`.  The in-memory
cache is mutated before the throttling logic runs.  The Euclidean-distance
comparison `sqrt(s) > 20` is embedded as `s > 20 * 20`, which is equivalent.
When a stored or incoming `y` is `None` at the distance computation, Python
raises `TypeError`; the cache mutation already performed persists and
neither the write nor the broadcast happens (`crashed` is set).  The
periodic expired-cannon cleanup only touches the cannon table and is
omitted. -/
def handle_position_update (st : AppState) (now : ℚ) (data : UPPayload) :
    PosUpdateResult :=
  match data.player_id with
  | none => ⟨st, [], false, false⟩
  | some player_id =>
    if player_id = "" then ⟨st, [], false, false⟩
    else
      match data.x, data.z with
      | some x, some z =>
        match alookup player_id st.players with
        | none => ⟨st, [], false, false⟩
        | some pl =>
          let position : CachedPos := ⟨x, data.y, z⟩
          let pl' : Player :=
            { pl with
                position := some position,
                rotation := if data.rotation.isSome then data.rotation else pl.rotation,
                mode := if data.mode.isSome then data.mode else pl.mode,
                last_update := some now }
          let players' := aset player_id pl' st.players
          let should_update_db : Option Bool :=
            match alookup player_id st.last_db_positions with
            | none => some true
            | some last_pos =>
              match data.y, last_pos.y with
              | some y, some ly =>
                some (decide ((x - last_pos.x) * (x - last_pos.x)
                  + (y - ly) * (y - ly) + (z - last_pos.z) * (z - last_pos.z)
                  > MIN_POSITION_UPDATE_DISTANCE * MIN_POSITION_UPDATE_DISTANCE))
              | _, _ => none
          match should_update_db with
          | none =>
            ⟨⟨players', st.last_db_update, st.last_db_positions⟩, [], false, true⟩
          | some should =>
            if now - (alookup player_id st.last_db_update).getD 0 > DB_UPDATE_INTERVAL
                ∧ should = true then
              ⟨⟨players', aset player_id now st.last_db_update,
                  aset player_id position st.last_db_positions⟩,
                [Broadcast.player_moved player_id position data.rotation data.mode],
                true, false⟩
            else
              ⟨⟨players', st.last_db_update, st.last_db_positions⟩,
                [Broadcast.player_moved player_id position data.rotation data.mode],
                false, false⟩
      | _, _ => ⟨st, [], false, false⟩

/-! ### projectile_manager.py: the tick loop

`_update_projectiles_task` scans the table, then removes the union of the
expired and collided id sets.  A collision checker is a Python callable that
may raise: it is embedded as a function into `Except` (`Except.error` is a
raised exception).  Python's string `hash` is process-seeded, so it enters
as the parameter `hashFn`; the registry of checkers enters as the function
`checkers` (`collision_checkers.get`).  The `if projectile_id not in
projectiles: continue` re-check guards against removal by a reentrant
checker; checkers are pure here, so the branch is never taken and is not
modelled.  Log output relevant to the claims is captured in `TickLog`. -/

abbrev Checker := String → Proj → Except String Bool

/-- Log entries emitted by the scan: every checker invocation, every caught
checker exception, and the sampled missing-checker warning. -/
inductive TickLog where
  | checked (projectile_id : String)
  | checkerError (projectile_id : String)
  | missingCheckerWarning (projectile_id : String)
deriving DecidableEq

/-- The projectile id a log entry is about. -/
def tagOf : TickLog → String
  | TickLog.checked i => i
  | TickLog.checkerError i => i
  | TickLog.missingCheckerWarning i => i

/-- The position recomputation of step 2 of the scan: elapsed time is
`now − created_at` and the initial velocity is `direction · speed`. -/
def updateProjPosition (now : ℚ) (p : Proj) : Proj :=
  let initial_velocity : Vec3 :=
    { x := p.direction.x * p.speed, y := p.direction.y * p.speed,
      z := p.direction.z * p.speed }
  { p with
      position := simulate_projectile p.initial_position initial_velocity
        p.gravity (now - p.created_at) }

/-- One loop iteration of the scan over a single projectile: the (possibly
updated) table entry, its contribution to `expired_ids`, to `collided_ids`,
and to the log. -/
def processProjectile (hashFn : String → Nat) (checkers : String → Option Checker)
    (now : ℚ) (projectile_id : String) (p : Proj) :
    (String × Proj) × List String × List String × List TickLog :=
  if now ≥ p.expires_at then
    ((projectile_id, p), [projectile_id], [], [])
  else
    let p' := updateProjPosition now p
    match checkers p.ptype with
    | some checker_func =>
      match checker_func projectile_id p' with
      | Except.ok true =>
        ((projectile_id, p'), [], [projectile_id], [TickLog.checked projectile_id])
      | Except.ok false =>
        ((projectile_id, p'), [], [], [TickLog.checked projectile_id])
      | Except.error _ =>
        ((projectile_id, p'), [], [],
          [TickLog.checked projectile_id, TickLog.checkerError projectile_id])
    | none =>
      ((projectile_id, p'), [], [],
        if hashFn projectile_id % 100 = 0
        then [TickLog.missingCheckerWarning projectile_id] else [])

/-- Accumulated result of the scan phase. -/
structure ScanResult where
  table : List (String × Proj)
  expired_ids : List String
  collided_ids : List String
  log : List TickLog

/-- The scan phase of `_update_projectiles_task` (steps 1–3), in table
order. -/
def scanProjectiles (hashFn : String → Nat) (checkers : String → Option Checker)
    (now : ℚ) : List (String × Proj) → ScanResult
  | [] => ⟨[], [], [], []⟩
  | (projectile_id, p) :: rest =>
    let r := processProjectile hashFn checkers now projectile_id p
    let rest' := scanProjectiles hashFn checkers now rest
    ⟨r.1 :: rest'.table, r.2.1 ++ rest'.expired_ids,
      r.2.2.1 ++ rest'.collided_ids, r.2.2.2 ++ rest'.log⟩

/-- `remove_projectile`: delete if present, report whether deleted. -/
def remove_projectile (projectile_id : String) (projectiles : List (String × Proj)) :
    Bool × List (String × Proj) :=
  if amem projectile_id projectiles
  then (true, aerase projectile_id projectiles)
  else (false, projectiles)

/-- The cleanup loop of step 4: remove each id of the (deduplicated) union
once.  Python iterates a `set`; the result is iteration-order independent,
and first-occurrence order is used here. -/
def removeAll (ids : List String) (projectiles : List (String × Proj)) :
    List (String × Proj) :=
  match ids with
  | [] => projectiles
  | i :: rest => removeAll rest (remove_projectile i projectiles).2

/-- Result of one tick. -/
structure TickResult where
  projectiles : List (String × Proj)
  expired_ids : List String
  collided_ids : List String
  log : List TickLog

/-- `_update_projectiles_task` from projectile_manager.py. -/
def _update_projectiles_task (hashFn : String → Nat)
    (checkers : String → Option Checker) (now : ℚ)
    (projectiles : List (String × Proj)) : TickResult :=
  let scan := scanProjectiles hashFn checkers now projectiles
  let ids_to_remove := (scan.expired_ids ++ scan.collided_ids).dedup
  { projectiles := removeAll ids_to_remove scan.table,
    expired_ids := scan.expired_ids, collided_ids := scan.collided_ids,
    log := scan.log }

/-- The condition under which the scan marks projectile `k` (with record
`q`) as collided: not yet expired, a checker is registered for its type,
and the checker returns `True` on the updated record without raising. -/
def collidesAt (checkers : String → Option Checker) (now : ℚ) (k : String)
    (q : Proj) : Prop :=
  ¬now ≥ q.expires_at
  ∧ ∃ f, checkers q.ptype = some f
      ∧ f k (updateProjPosition now q) = Except.ok true

/-! ### Health invariant -/

/-- Every player record reachable by lookup that carries a health value has
it within 0..100. -/
def HealthInv (players : Players) : Prop :=
  ∀ pid pl, alookup pid players = some pl → ∀ h, pl.health = some h → 0 ≤ h ∧ h ≤ 100

/-! ### Helper lemmas on association lists -/

@[simp] theorem alookup_nil {α : Type} (k : String) : alookup (α := α) k [] = none := rfl

@[simp] theorem alookup_cons {α : Type} (k k' : String) (v : α) (l : List (String × α)) :
    alookup k ((k', v) :: l) = if k' = k then some v else alookup k l := rfl

theorem alookup_aset_self {α : Type} (k : String) (v : α) (l : List (String × α)) :
    alookup k (aset k v l) = some v := by
  induction l with
  | nil => simp [aset]
  | cons hd tl ih =>
    obtain ⟨k', v'⟩ := hd
    by_cases hk : k' = k
    · simp [aset, hk]
    · simp [aset, hk, ih]

theorem alookup_aset_ne {α : Type} (k j : String) (v : α) (l : List (String × α))
    (hne : k ≠ j) : alookup j (aset k v l) = alookup j l := by
  induction l with
  | nil => simp [aset, alookup, hne]
  | cons hd tl ih =>
    obtain ⟨k', v'⟩ := hd
    by_cases hk : k' = k
    · subst hk
      simp [aset, alookup, hne]
    · by_cases hj : k' = j
      · subst hj
        simp [aset, hk, alookup]
      · simp [aset, hk, alookup, hj, ih]

theorem alookup_mem {α : Type} (k : String) (l : List (String × α)) (v : α)
    (h : alookup k l = some v) : (k, v) ∈ l := by
  induction l with
  | nil => simp [alookup] at h
  | cons hd tl ih =>
    obtain ⟨k', v'⟩ := hd
    by_cases hk : k' = k
    · subst hk
      simp [alookup] at h
      subst h
      exact List.mem_cons_self _ _
    · simp [alookup, hk] at h
      exact List.mem_cons_of_mem _ (ih h)

/-! ### Helper lemmas on the health invariant -/

theorem HealthInv_aset (l : Players) (k : String) (pl : Player)
    (hinv : HealthInv l) (hok : ∀ h, pl.health = some h → 0 ≤ h ∧ h ≤ 100) :
    HealthInv (aset k pl l) := by
  intro pid pl' hl h hh
  by_cases hk : k = pid
  · subst hk
    rw [alookup_aset_self] at hl
    cases hl
    exact hok h hh
  · rw [alookup_aset_ne _ _ _ _ hk] at hl
    exact hinv pid pl' hl h hh

/-- A decidable sufficient condition for `HealthInv`, for concrete witnesses. -/
def healthOkb (pl : Player) : Bool :=
  match pl.health with
  | none => true
  | some h => decide (0 ≤ h ∧ h ≤ 100)

theorem HealthInv_of_all (l : Players)
    (hall : l.all (fun e => healthOkb e.2) = true) : HealthInv l := by
  intro pid pl hl h hh
  have hm := List.all_eq_true.mp hall _ (alookup_mem _ _ _ hl)
  rw [healthOkb, hh] at hm
  exact of_decide_eq_true hm

theorem alookup_defeatKillsUpdate_health (players : Players) (v pid : String) :
    (alookup pid (defeatKillsUpdate players v)).map Player.health
      = (alookup pid players).map Player.health := by
  unfold defeatKillsUpdate
  cases hv : alookup v players with
  | none => rfl
  | some vrec =>
    cases hk : vrec.monsterKills with
    | none => simp only [hk]
    | some k =>
      simp only [hk]
      by_cases hp : v = pid
      · subst hp
        rw [alookup_aset_self, hv]
        rfl
      · rw [alookup_aset_ne _ _ _ _ hp]

theorem healthEq_bounds (players : Players) (pid : String)
    (l : Players) (pl : Player)
    (he : (alookup pid l).map Player.health = (alookup pid players).map Player.health)
    (hl : alookup pid l = some pl)
    (hb : ∀ pl₂, alookup pid players = some pl₂ →
      ∀ h, pl₂.health = some h → 0 ≤ h ∧ h ≤ 100) :
    ∀ h, pl.health = some h → 0 ≤ h ∧ h ≤ 100 := by
  intro h hh
  rw [hl] at he
  cases hq : alookup pid players with
  | none => rw [hq] at he; simp at he
  | some pl₂ =>
    rw [hq] at he
    simp only [Option.map_some'] at he
    have heq := Option.some.inj he
    exact hb pl₂ hq h (heq ▸ hh)

theorem handle_player_defeat_HealthInv (players : Players) (d v : String)
    (hb : ∀ pid pl, alookup pid players = some pl → pid ≠ d →
      ∀ h, pl.health = some h → 0 ≤ h ∧ h ≤ 100) :
    HealthInv (handle_player_defeat players d v).1 := by
  cases hd : alookup d (defeatKillsUpdate players v) with
  | none =>
    simp only [handle_player_defeat, hd]
    intro pid pl hl h hh
    by_cases hp : pid = d
    · subst hp
      rw [hd] at hl
      cases hl
    · exact healthEq_bounds players pid _ pl
        (alookup_defeatKillsUpdate_health players v pid) hl
        (fun pl₂ hq => hb pid pl₂ hq hp) h hh
  | some drec =>
    simp only [handle_player_defeat, hd]
    intro pid pl hl h hh
    by_cases hp : pid = d
    · subst hp
      rw [alookup_aset_self] at hl
      cases hl
      simp only at hh
      cases hh
      exact ⟨by norm_num, by norm_num⟩
    · rw [alookup_aset_ne _ _ _ _ (fun he => hp he.symm)] at hl
      exact healthEq_bounds players pid _ pl
        (alookup_defeatKillsUpdate_health players v pid) hl
        (fun pl₂ hq => hb pid pl₂ hq hp) h hh

theorem damage_player_HealthInv (players : Players) (pid : String) (amount : ℚ)
    (src : Option String) (hinv : HealthInv players) (hamt : 0 ≤ amount) :
    HealthInv (damage_player players pid amount src).players := by
  cases hlook : alookup pid players with
  | none => simp only [damage_player, hlook]; exact hinv
  | some pl =>
    by_cases hact : pl.active.getD false = false
    · simp only [damage_player, hlook, if_pos hact]; exact hinv
    · simp only [damage_player, hlook, if_neg hact]
      have hcur : pl.health.getD DEFAULT_HEALTH ≤ 100 := by
        cases hh : pl.health with
        | none => simp [DEFAULT_HEALTH]
        | some hv => simpa using (hinv pid pl hlook hv hh).2
      have hok : ∀ h,
          (some (max 0 (pl.health.getD DEFAULT_HEALTH - amount)) : Option ℚ) = some h →
          0 ≤ h ∧ h ≤ 100 := by
        intro h hh
        cases hh
        exact ⟨le_max_left _ _, max_le (by norm_num) (by linarith)⟩
      split
      · exact HealthInv_aset _ _ _ hinv hok
      · exact HealthInv_aset _ _ _ hinv hok

theorem respawn_player_HealthInv (players : Players) (pid : String)
    (res : Players × List Broadcast) (hres : respawn_player players pid = some res)
    (hinv : HealthInv players) : HealthInv res.1 := by
  cases hlook : alookup pid players with
  | none => simp [respawn_player, hlook] at hres
  | some pl =>
    simp only [respawn_player, hlook, Option.some.injEq] at hres
    subst hres
    refine HealthInv_aset _ _ _ hinv ?_
    intro h hh
    simp only at hh
    cases hh
    exact ⟨by norm_num [DEFAULT_HEALTH], by norm_num [DEFAULT_HEALTH]⟩

theorem playerJoinCache_HealthInv (players : Players) (docid : String) (base : Player)
    (hinv : HealthInv players) : HealthInv (playerJoinCache players docid base) := by
  refine HealthInv_aset _ _ _ hinv ?_
  intro h hh
  simp only at hh
  cases hh
  exact ⟨by norm_num, by norm_num⟩

theorem cannonApplyDamage_HealthInv (players : Players) (hit owner : String)
    (hrec : Player) (h : ℚ) (hlook : alookup hit players = some hrec)
    (hh : hrec.health = some h) (hinv : HealthInv players) :
    HealthInv (if h - CANNON_DAMAGE ≤ 0 then
        handle_player_defeat
          (aset hit { hrec with health := some (h - CANNON_DAMAGE) } players) hit owner
      else (aset hit { hrec with health := some (h - CANNON_DAMAGE) } players, [])).1 := by
  have hbounds := hinv hit hrec hlook h hh
  by_cases hdie : h - CANNON_DAMAGE ≤ 0
  · rw [if_pos hdie]
    refine handle_player_defeat_HealthInv _ _ _ ?_
    intro pid pl hl hp hq hhq
    rw [alookup_aset_ne _ _ _ _ (fun he => hp he.symm)] at hl
    exact hinv pid pl hl hq hhq
  · rw [if_neg hdie]
    refine HealthInv_aset _ _ _ hinv ?_
    intro hq hhq
    simp only at hhq
    cases hhq
    constructor
    · linarith [not_le.mp hdie]
    · have : (CANNON_DAMAGE : ℚ) = 10 := rfl
      linarith [hbounds.2]

theorem handle_cannon_hit_HealthInv (st : CannonState) (now : ℚ)
    (data : CannonHitPayload) (hinv : HealthInv st.players) :
    HealthInv (handle_cannon_hit st now data).1.players := by
  cases hcid : data.cannon_id with
  | none => simp only [handle_cannon_hit, hcid]; exact hinv
  | some cid =>
    by_cases hcid0 : cid = ""
    · simp only [handle_cannon_hit, hcid, if_pos hcid0]; exact hinv
    · simp only [handle_cannon_hit, hcid, if_neg hcid0]
      cases hcan : alookup cid st.cannons with
      | none => exact hinv
      | some cannon =>
        by_cases hrep : data.player_id ≠ some cannon.owner
        · simp only [if_pos hrep]; exact hinv
        · simp only [if_neg hrep]
          cases hhid : data.hit_player_id with
          | none => exact hinv
          | some hit =>
            by_cases hhid0 : hit = ""
            · simp only [if_pos hhid0]; exact hinv
            · simp only [if_neg hhid0]
              cases hlook : alookup hit st.players with
              | none => exact hinv
              | some hrec =>
                by_cases hexp : now > cannon.expires_at
                · simp only [if_pos hexp]; exact hinv
                · simp only [if_neg hexp]
                  cases hh : hrec.health with
                  | none => exact hinv
                  | some h =>
                    exact cannonApplyDamage_HealthInv st.players hit cannon.owner
                      hrec h hlook hh hinv

theorem handle_cannon_collision_HealthInv (players : Players) (cannon : Cannon)
    (hit : String) (hinv : HealthInv players) :
    HealthInv (handle_cannon_collision players cannon hit).1 := by
  cases hlook : alookup hit players with
  | none => simp only [handle_cannon_collision, hlook]; exact hinv
  | some hrec =>
    cases hh : hrec.health with
    | none => simp only [handle_cannon_collision, hlook, hh]; exact hinv
    | some h =>
      simp only [handle_cannon_collision, hlook, hh]
      have hd := cannonApplyDamage_HealthInv players hit cannon.owner hrec h hlook hh hinv
      by_cases hdie : h - CANNON_DAMAGE ≤ 0
      · rw [if_pos hdie] at hd
        rw [if_pos hdie]
        exact hd
      · rw [if_neg hdie] at hd
        rw [if_neg hdie]
        exact hd

/-! ### Helper lemmas on the tick loop -/

theorem alookup_none_iff {α : Type} (k : String) (l : List (String × α)) :
    alookup k l = none ↔ k ∉ akeys l := by
  induction l with
  | nil => simp [akeys]
  | cons hd tl ih =>
    obtain ⟨k', v'⟩ := hd
    by_cases hk : k' = k
    · subst hk
      simp [alookup, akeys]
    · have hkk : ¬k = k' := fun he => hk he.symm
      simp [alookup, hk, akeys, ih, hkk]

theorem mem_akeys_of_mem {α : Type} {k : String} {v : α} {l : List (String × α)}
    (h : (k, v) ∈ l) : k ∈ akeys l :=
  List.mem_map_of_mem Prod.fst h

theorem alookup_of_mem_nodup {α : Type} {k : String} {v : α} {l : List (String × α)}
    (hnd : (akeys l).Nodup) (h : (k, v) ∈ l) : alookup k l = some v := by
  induction l with
  | nil => cases h
  | cons hd tl ih =>
    obtain ⟨k', v'⟩ := hd
    rcases List.mem_cons.mp h with heq | hmem
    · cases heq
      simp [alookup]
    · have hk : k' ≠ k := by
        intro he
        subst he
        exact (List.nodup_cons.mp hnd).1 (mem_akeys_of_mem hmem)
      simp only [alookup, if_neg hk]
      exact ih (List.nodup_cons.mp hnd).2 hmem

theorem mem_keyUnique {α : Type} {k : String} {a b : α} {l : List (String × α)}
    (hnd : (akeys l).Nodup) (ha : (k, a) ∈ l) (hb : (k, b) ∈ l) : a = b := by
  have h1 := alookup_of_mem_nodup hnd ha
  have h2 := alookup_of_mem_nodup hnd hb
  rw [h1] at h2
  exact Option.some.inj h2

theorem aerase_sublist {α : Type} (k : String) (l : List (String × α)) :
    (aerase k l).Sublist l := by
  induction l with
  | nil => simp [aerase]
  | cons hd tl ih =>
    obtain ⟨k', v'⟩ := hd
    by_cases hk : k' = k
    · simp only [aerase, if_pos hk]
      exact List.sublist_cons_self _ _
    · simp only [aerase, if_neg hk]
      exact List.Sublist.cons₂ _ ih

theorem nodup_aerase {α : Type} (k : String) (l : List (String × α))
    (hnd : (akeys l).Nodup) : (akeys (aerase k l)).Nodup :=
  List.Nodup.sublist (List.Sublist.map Prod.fst (aerase_sublist k l)) hnd

theorem aerase_alookup_self {α : Type} (k : String) (l : List (String × α))
    (hnd : (akeys l).Nodup) : alookup k (aerase k l) = none := by
  induction l with
  | nil => simp [aerase]
  | cons hd tl ih =>
    obtain ⟨k', v'⟩ := hd
    by_cases hk : k' = k
    · subst hk
      simp only [aerase, if_pos rfl]
      exact (alookup_none_iff _ _).mpr (List.nodup_cons.mp hnd).1
    · simp only [aerase, if_neg hk, alookup, if_neg hk]
      exact ih (List.nodup_cons.mp hnd).2

theorem aerase_alookup_ne {α : Type} (k j : String) (l : List (String × α))
    (hne : k ≠ j) : alookup j (aerase k l) = alookup j l := by
  induction l with
  | nil => simp [aerase]
  | cons hd tl ih =>
    obtain ⟨k', v'⟩ := hd
    by_cases hk : k' = k
    · subst hk
      simp [aerase, alookup, hne]
    · simp [aerase, hk, alookup, ih]

theorem removeAll_alookup (ids : List String) :
    ∀ t : List (String × Proj), (akeys t).Nodup → ∀ j,
      alookup j (removeAll ids t) = if j ∈ ids then none else alookup j t := by
  induction ids with
  | nil =>
    intro t hnd j
    simp [removeAll]
  | cons i rest ih =>
    intro t hnd j
    simp only [removeAll]
    by_cases hmem : amem i t = true
    · simp only [remove_projectile, if_pos hmem]
      rw [ih (aerase i t) (nodup_aerase i t hnd) j]
      by_cases hj : j ∈ rest
      · simp [hj]
      · by_cases hji : j = i
        · subst hji
          simp [hj, aerase_alookup_self j t hnd]
        · simp [hj, hji, aerase_alookup_ne i j t (fun he => hji he.symm)]
    · simp only [remove_projectile, if_neg hmem]
      rw [ih t hnd j]
      by_cases hj : j ∈ rest
      · simp [hj]
      · by_cases hji : j = i
        · subst hji
          have hnone : alookup j t = none := by
            unfold amem at hmem
            cases halookup : alookup j t with
            | none => rfl
            | some v => rw [halookup] at hmem; simp at hmem
          simp [hj, hnone]
        · simp [hj, hji]

theorem process_entry_eq (hashFn : String → Nat) (checkers : String → Option Checker)
    (now : ℚ) (k : String) (q : Proj) :
    (processProjectile hashFn checkers now k q).1
      = (k, if now ≥ q.expires_at then q else updateProjPosition now q) := by
  by_cases hexp : now ≥ q.expires_at
  · simp only [processProjectile, if_pos hexp]
  · cases hc : checkers q.ptype with
    | none => simp only [processProjectile, if_neg hexp, hc]
    | some f =>
      cases hr : f k (updateProjPosition now q) with
      | ok b => cases b <;> simp only [processProjectile, if_neg hexp, hc, hr]
      | error e => simp only [processProjectile, if_neg hexp, hc, hr]

theorem process_expired_mem (hashFn : String → Nat) (checkers : String → Option Checker)
    (now : ℚ) (k : String) (q : Proj) (j : String) :
    j ∈ (processProjectile hashFn checkers now k q).2.1
      ↔ j = k ∧ now ≥ q.expires_at := by
  by_cases hexp : now ≥ q.expires_at
  · simp [processProjectile, hexp]
  · cases hc : checkers q.ptype with
    | none => simp [processProjectile, hexp, hc]
    | some f =>
      cases hr : f k (updateProjPosition now q) with
      | ok b => cases b <;> simp [processProjectile, hexp, hc, hr]
      | error e => simp [processProjectile, hexp, hc, hr]

theorem process_collided_mem (hashFn : String → Nat) (checkers : String → Option Checker)
    (now : ℚ) (k : String) (q : Proj) (j : String) :
    j ∈ (processProjectile hashFn checkers now k q).2.2.1
      ↔ j = k ∧ collidesAt checkers now k q := by
  by_cases hexp : now ≥ q.expires_at
  · simp [processProjectile, collidesAt, hexp]
  · cases hc : checkers q.ptype with
    | none => simp [processProjectile, collidesAt, hexp, hc]
    | some f =>
      cases hr : f k (updateProjPosition now q) with
      | ok b => cases b <;> simp [processProjectile, collidesAt, hexp, hc, hr]
      | error e => simp [processProjectile, collidesAt, hexp, hc, hr]

theorem process_log_tag (hashFn : String → Nat) (checkers : String → Option Checker)
    (now : ℚ) (k : String) (q : Proj) (t : TickLog)
    (h : t ∈ (processProjectile hashFn checkers now k q).2.2.2) : tagOf t = k := by
  by_cases hexp : now ≥ q.expires_at
  · simp [processProjectile, hexp] at h
  · cases hc : checkers q.ptype with
    | none =>
      by_cases hh : hashFn k % 100 = 0
      · simp [processProjectile, hexp, hc, hh] at h
        subst h
        rfl
      · simp [processProjectile, hexp, hc, hh] at h
    | some f =>
      cases hr : f k (updateProjPosition now q) with
      | ok b =>
        cases b <;> simp [processProjectile, hexp, hc, hr] at h <;> (subst h; rfl)
      | error e =>
        simp [processProjectile, hexp, hc, hr] at h
        rcases h with rfl | rfl <;> rfl

theorem process_log_count_checked (hashFn : String → Nat)
    (checkers : String → Option Checker) (now : ℚ) (k : String) (q : Proj)
    (j : String) :
    ((processProjectile hashFn checkers now k q).2.2.2).count (TickLog.checked j)
      = if j = k ∧ ¬now ≥ q.expires_at ∧ (checkers q.ptype).isSome = true
        then 1 else 0 := by
  by_cases hexp : now ≥ q.expires_at
  · simp [processProjectile, hexp]
  · cases hc : checkers q.ptype with
    | none =>
      by_cases hh : hashFn k % 100 = 0 <;>
        simp [processProjectile, hh, hexp, hc]
    | some f =>
      cases hr : f k (updateProjPosition now q) with
      | ok b =>
        cases b <;> by_cases hj : j = k <;>
          simp [processProjectile, hj, hexp, hc, hr, List.count_cons, List.count_nil]
      | error e =>
        by_cases hj : j = k <;>
          simp [processProjectile, hj, hexp, hc, hr, List.count_cons, List.count_nil]

theorem scan_table_alookup (hashFn : String → Nat) (checkers : String → Option Checker)
    (now : ℚ) (l : List (String × Proj)) (j : String) :
    alookup j (scanProjectiles hashFn checkers now l).table
      = (alookup j l).map
          (fun q => if now ≥ q.expires_at then q else updateProjPosition now q) := by
  induction l with
  | nil => rfl
  | cons hd tl ih =>
    obtain ⟨k, q⟩ := hd
    simp only [scanProjectiles]
    rw [process_entry_eq]
    by_cases hk : k = j
    · simp [alookup, hk]
    · simp [alookup, hk, ih]

theorem scan_keys (hashFn : String → Nat) (checkers : String → Option Checker)
    (now : ℚ) (l : List (String × Proj)) :
    akeys (scanProjectiles hashFn checkers now l).table = akeys l := by
  induction l with
  | nil => rfl
  | cons hd tl ih =>
    obtain ⟨k, q⟩ := hd
    simp only [scanProjectiles]
    rw [akeys, List.map_cons, process_entry_eq]
    rw [akeys] at ih
    rw [ih]
    rfl

theorem scan_mem_expired (hashFn : String → Nat) (checkers : String → Option Checker)
    (now : ℚ) (l : List (String × Proj)) (j : String) :
    j ∈ (scanProjectiles hashFn checkers now l).expired_ids
      ↔ ∃ q, (j, q) ∈ l ∧ now ≥ q.expires_at := by
  induction l with
  | nil => simp [scanProjectiles]
  | cons hd tl ih =>
    obtain ⟨k, q⟩ := hd
    simp only [scanProjectiles, List.mem_append, ih]
    constructor
    · rintro (hin | ⟨q', hmem, hexp⟩)
      · obtain ⟨rfl, hexp⟩ := (process_expired_mem hashFn checkers now k q j).mp hin
        exact ⟨q, List.mem_cons_self _ _, hexp⟩
      · exact ⟨q', List.mem_cons_of_mem _ hmem, hexp⟩
    · rintro ⟨q', hmem, hexp⟩
      rcases List.mem_cons.mp hmem with heq | hmem'
      · cases heq
        exact Or.inl ((process_expired_mem hashFn checkers now j q j).mpr ⟨rfl, hexp⟩)
      · exact Or.inr ⟨q', hmem', hexp⟩

theorem scan_mem_collided (hashFn : String → Nat) (checkers : String → Option Checker)
    (now : ℚ) (l : List (String × Proj)) (j : String) :
    j ∈ (scanProjectiles hashFn checkers now l).collided_ids
      ↔ ∃ q, (j, q) ∈ l ∧ collidesAt checkers now j q := by
  induction l with
  | nil => simp [scanProjectiles]
  | cons hd tl ih =>
    obtain ⟨k, q⟩ := hd
    simp only [scanProjectiles, List.mem_append, ih]
    constructor
    · rintro (hin | ⟨q', hmem, hcol⟩)
      · obtain ⟨rfl, hcol⟩ := (process_collided_mem hashFn checkers now k q j).mp hin
        exact ⟨q, List.mem_cons_self _ _, hcol⟩
      · exact ⟨q', List.mem_cons_of_mem _ hmem, hcol⟩
    · rintro ⟨q', hmem, hcol⟩
      rcases List.mem_cons.mp hmem with heq | hmem'
      · cases heq
        exact Or.inl ((process_collided_mem hashFn checkers now j q j).mpr ⟨rfl, hcol⟩)
      · exact Or.inr ⟨q', hmem', hcol⟩

theorem scan_log_tag (hashFn : String → Nat) (checkers : String → Option Checker)
    (now : ℚ) (l : List (String × Proj)) (t : TickLog)
    (h : t ∈ (scanProjectiles hashFn checkers now l).log) : tagOf t ∈ akeys l := by
  induction l with
  | nil => cases h
  | cons hd tl ih =>
    obtain ⟨k, q⟩ := hd
    simp only [scanProjectiles, List.mem_append] at h
    rcases h with hin | hin
    · rw [process_log_tag hashFn checkers now k q t hin]
      exact List.mem_cons_self _ _
    · exact List.mem_cons_of_mem _ (ih hin)

theorem scan_log_mem_entry (hashFn : String → Nat) (checkers : String → Option Checker)
    (now : ℚ) (l : List (String × Proj)) (k : String) (q : Proj) (t : TickLog)
    (hmem : (k, q) ∈ l)
    (h : t ∈ (processProjectile hashFn checkers now k q).2.2.2) :
    t ∈ (scanProjectiles hashFn checkers now l).log := by
  induction l with
  | nil => cases hmem
  | cons hd tl ih =>
    obtain ⟨k', q'⟩ := hd
    simp only [scanProjectiles, List.mem_append]
    rcases List.mem_cons.mp hmem with heq | hmem'
    · cases heq
      exact Or.inl h
    · exact Or.inr (ih hmem')

theorem scan_log_count_checked (hashFn : String → Nat)
    (checkers : String → Option Checker) (now : ℚ) :
    ∀ l : List (String × Proj), (akeys l).Nodup → ∀ j p, (j, p) ∈ l →
      ((scanProjectiles hashFn checkers now l).log).count (TickLog.checked j)
        = if ¬now ≥ p.expires_at ∧ (checkers p.ptype).isSome = true
          then 1 else 0 := by
  intro l
  induction l with
  | nil =>
    intro _ j p hm
    cases hm
  | cons hd tl ih =>
    intro hnd j p hm
    obtain ⟨k, q⟩ := hd
    simp only [scanProjectiles, List.count_append]
    rcases List.mem_cons.mp hm with heq | hmem
    · cases heq
      have hrest : ((scanProjectiles hashFn checkers now tl).log).count
          (TickLog.checked j) = 0 := by
        refine List.count_eq_zero.mpr ?_
        intro hin
        have := scan_log_tag hashFn checkers now tl _ hin
        exact (List.nodup_cons.mp hnd).1 this
      rw [hrest, process_log_count_checked]
      simp
    · have hkne : j ≠ k := by
        intro he
        subst he
        exact (List.nodup_cons.mp hnd).1 (mem_akeys_of_mem hmem)
      rw [process_log_count_checked]
      rw [if_neg (fun hc => hkne hc.1)]
      rw [ih (List.nodup_cons.mp hnd).2 j p hmem]
      simp

theorem scan_expired_iff (hashFn : String → Nat) (checkers : String → Option Checker)
    (now : ℚ) (l : List (String × Proj)) (hnd : (akeys l).Nodup)
    (j : String) (p : Proj) (hmem : (j, p) ∈ l) :
    j ∈ (scanProjectiles hashFn checkers now l).expired_ids ↔ now ≥ p.expires_at := by
  rw [scan_mem_expired]
  constructor
  · rintro ⟨q, hq, hexp⟩
    rwa [mem_keyUnique hnd hmem hq]
  · intro hexp
    exact ⟨p, hmem, hexp⟩

theorem scan_collided_iff (hashFn : String → Nat) (checkers : String → Option Checker)
    (now : ℚ) (l : List (String × Proj)) (hnd : (akeys l).Nodup)
    (j : String) (p : Proj) (hmem : (j, p) ∈ l) :
    j ∈ (scanProjectiles hashFn checkers now l).collided_ids
      ↔ collidesAt checkers now j p := by
  rw [scan_mem_collided]
  constructor
  · rintro ⟨q, hq, hcol⟩
    rwa [mem_keyUnique hnd hmem hq]
  · intro hcol
    exact ⟨p, hmem, hcol⟩

/-! ### Claim theorems -/

/-- C1: in every tick over a table with unique ids, an expired projectile
(now ≥ expires_at) is put in the expired set with its record untouched and
its checker never invoked; a live one has its position recomputed from
elapsed = now − created_at and its checker invoked at most once, collides
exactly when a registered checker returns True on the updated record; no
projectile is both expired and collided; everything in the union is removed
exactly once (its key count drops from 1 to 0) and is absent afterwards;
everything else survives the cleanup untouched. -/
theorem claim_C1_tick (hashFn : String → Nat) (checkers : String → Option Checker)
    (now : ℚ) (table : List (String × Proj)) (id : String) (p : Proj)
    (hnd : (akeys table).Nodup) (hmem : (id, p) ∈ table) :
    (now ≥ p.expires_at →
      id ∈ (_update_projectiles_task hashFn checkers now table).expired_ids
      ∧ id ∉ (_update_projectiles_task hashFn checkers now table).collided_ids
      ∧ alookup id (scanProjectiles hashFn checkers now table).table = some p
      ∧ ((scanProjectiles hashFn checkers now table).log).count (TickLog.checked id) = 0
      ∧ alookup id (_update_projectiles_task hashFn checkers now table).projectiles
          = none)
    ∧ (¬now ≥ p.expires_at →
        alookup id (scanProjectiles hashFn checkers now table).table
            = some (updateProjPosition now p)
        ∧ (updateProjPosition now p).position
            = simulate_projectile p.initial_position
                ⟨p.direction.x * p.speed, p.direction.y * p.speed,
                  p.direction.z * p.speed⟩
                p.gravity (now - p.created_at)
        ∧ ((scanProjectiles hashFn checkers now table).log).count
            (TickLog.checked id) ≤ 1
        ∧ (id ∈ (_update_projectiles_task hashFn checkers now table).collided_ids
            ↔ ∃ f, checkers p.ptype = some f
                ∧ f id (updateProjPosition now p) = Except.ok true)
        ∧ id ∉ (_update_projectiles_task hashFn checkers now table).expired_ids)
    ∧ ¬(id ∈ (_update_projectiles_task hashFn checkers now table).expired_ids
        ∧ id ∈ (_update_projectiles_task hashFn checkers now table).collided_ids)
    ∧ ((id ∈ (_update_projectiles_task hashFn checkers now table).expired_ids
        ∨ id ∈ (_update_projectiles_task hashFn checkers now table).collided_ids) →
        (akeys (scanProjectiles hashFn checkers now table).table).count id = 1
        ∧ (akeys (_update_projectiles_task hashFn checkers now table).projectiles).count
            id = 0
        ∧ alookup id (_update_projectiles_task hashFn checkers now table).projectiles
            = none)
    ∧ (id ∉ (_update_projectiles_task hashFn checkers now table).expired_ids →
        id ∉ (_update_projectiles_task hashFn checkers now table).collided_ids →
        alookup id (_update_projectiles_task hashFn checkers now table).projectiles
          = alookup id (scanProjectiles hashFn checkers now table).table) := by
  have hndScan : (akeys (scanProjectiles hashFn checkers now table).table).Nodup := by
    rw [scan_keys]
    exact hnd
  have hexpIff := scan_expired_iff hashFn checkers now table hnd id p hmem
  have hcolIff := scan_collided_iff hashFn checkers now table hnd id p hmem
  have hLookT : alookup id table = some p := alookup_of_mem_nodup hnd hmem
  have hScanLook : alookup id (scanProjectiles hashFn checkers now table).table
      = some (if now ≥ p.expires_at then p else updateProjPosition now p) := by
    rw [scan_table_alookup, hLookT]
    rfl
  have hRemove := removeAll_alookup
    (((scanProjectiles hashFn checkers now table).expired_ids
      ++ (scanProjectiles hashFn checkers now table).collided_ids).dedup)
    (scanProjectiles hashFn checkers now table).table hndScan id
  have hMemDedup : id ∈ (((scanProjectiles hashFn checkers now table).expired_ids
      ++ (scanProjectiles hashFn checkers now table).collided_ids).dedup)
      ↔ id ∈ (scanProjectiles hashFn checkers now table).expired_ids
        ∨ id ∈ (scanProjectiles hashFn checkers now table).collided_ids := by
    rw [List.mem_dedup, List.mem_append]
  refine ⟨?_, ?_, ?_, ?_, ?_⟩
  · intro hexp
    refine ⟨hexpIff.mpr hexp, fun hcol => (hcolIff.mp hcol).1 hexp, ?_, ?_, ?_⟩
    · rw [hScanLook, if_pos hexp]
    · rw [scan_log_count_checked hashFn checkers now table hnd id p hmem,
        if_neg (fun hc => hc.1 hexp)]
    · show alookup id (removeAll _ _) = none
      rw [hRemove, if_pos (hMemDedup.mpr (Or.inl (hexpIff.mpr hexp)))]
  · intro hexp
    refine ⟨?_, rfl, ?_, ?_, fun he => hexp (hexpIff.mp he)⟩
    · rw [hScanLook, if_neg hexp]
    · rw [scan_log_count_checked hashFn checkers now table hnd id p hmem]
      split
      · norm_num
      · norm_num
    · constructor
      · intro hcol
        exact (hcolIff.mp hcol).2
      · intro hf
        exact hcolIff.mpr ⟨hexp, hf⟩
  · rintro ⟨he, hc⟩
    exact (hcolIff.mp hc).1 (hexpIff.mp he)
  · intro hor
    have hnone : alookup id
        (_update_projectiles_task hashFn checkers now table).projectiles = none := by
      show alookup id (removeAll _ _) = none
      rw [hRemove, if_pos (hMemDedup.mpr hor)]
    refine ⟨?_, ?_, hnone⟩
    · exact List.count_eq_one_of_mem hndScan
        (by rw [scan_keys]; exact mem_akeys_of_mem hmem)
    · exact List.count_eq_zero.mpr ((alookup_none_iff _ _).mp hnone)
  · intro hne hnc
    show alookup id (removeAll _ _) = _
    rw [hRemove, if_neg (fun hd => (hMemDedup.mp hd).elim hne hnc)]

/-- C1 witness: at t = 5, projectile "a" (expires at 3) of a table also
holding the live "b" (expires at 10) is marked expired with position
untouched and checker never invoked, and is gone after the tick. -/
theorem claim_C1_tick_witness :
    "a" ∈ (_update_projectiles_task (fun _ => 1) (fun _ => none) 5
        [("a", ⟨"a", "o", "cannon", ⟨0, 0, 0⟩, ⟨1, 0, 0⟩, 1, 0, 0, 3, ⟨0, 0, 0⟩⟩),
          ("b", ⟨"b", "o", "cannon", ⟨0, 0, 0⟩, ⟨1, 0, 0⟩, 1, 0, 0, 10, ⟨0, 0, 0⟩⟩)]).expired_ids
    ∧ "a" ∉ (_update_projectiles_task (fun _ => 1) (fun _ => none) 5
        [("a", ⟨"a", "o", "cannon", ⟨0, 0, 0⟩, ⟨1, 0, 0⟩, 1, 0, 0, 3, ⟨0, 0, 0⟩⟩),
          ("b", ⟨"b", "o", "cannon", ⟨0, 0, 0⟩, ⟨1, 0, 0⟩, 1, 0, 0, 10, ⟨0, 0, 0⟩⟩)]).collided_ids
    ∧ alookup "a" (scanProjectiles (fun _ => 1) (fun _ => none) 5
        [("a", ⟨"a", "o", "cannon", ⟨0, 0, 0⟩, ⟨1, 0, 0⟩, 1, 0, 0, 3, ⟨0, 0, 0⟩⟩),
          ("b", ⟨"b", "o", "cannon", ⟨0, 0, 0⟩, ⟨1, 0, 0⟩, 1, 0, 0, 10, ⟨0, 0, 0⟩⟩)]).table
      = some ⟨"a", "o", "cannon", ⟨0, 0, 0⟩, ⟨1, 0, 0⟩, 1, 0, 0, 3, ⟨0, 0, 0⟩⟩
    ∧ ((scanProjectiles (fun _ => 1) (fun _ => none) 5
        [("a", ⟨"a", "o", "cannon", ⟨0, 0, 0⟩, ⟨1, 0, 0⟩, 1, 0, 0, 3, ⟨0, 0, 0⟩⟩),
          ("b", ⟨"b", "o", "cannon", ⟨0, 0, 0⟩, ⟨1, 0, 0⟩, 1, 0, 0, 10, ⟨0, 0, 0⟩⟩)]).log).count
        (TickLog.checked "a") = 0
    ∧ alookup "a" (_update_projectiles_task (fun _ => 1) (fun _ => none) 5
        [("a", ⟨"a", "o", "cannon", ⟨0, 0, 0⟩, ⟨1, 0, 0⟩, 1, 0, 0, 3, ⟨0, 0, 0⟩⟩),
          ("b", ⟨"b", "o", "cannon", ⟨0, 0, 0⟩, ⟨1, 0, 0⟩, 1, 0, 0, 10, ⟨0, 0, 0⟩⟩)]).projectiles
      = none :=
  (claim_C1_tick (fun _ => 1) (fun _ => none) 5
    [("a", ⟨"a", "o", "cannon", ⟨0, 0, 0⟩, ⟨1, 0, 0⟩, 1, 0, 0, 3, ⟨0, 0, 0⟩⟩),
      ("b", ⟨"b", "o", "cannon", ⟨0, 0, 0⟩, ⟨1, 0, 0⟩, 1, 0, 0, 10, ⟨0, 0, 0⟩⟩)]
    "a" ⟨"a", "o", "cannon", ⟨0, 0, 0⟩, ⟨1, 0, 0⟩, 1, 0, 0, 3, ⟨0, 0, 0⟩⟩
    (by decide) (by decide)).1 (by norm_num)

/-- C8 counterexample: with a projectile of a type that has no registered
checker and a process hash seed making `hash(id) % 100 ≠ 0`, the tick runs
fine (the projectile is neither collided nor expired and survives) but the
log is EMPTY — the missing checker is not observable in the log for this
projectile, refuting the claim's unconditional "is observable (logged)". -/
theorem claim_C8_counterexample :
    (_update_projectiles_task (fun _ => 1) (fun _ => none) 1
        [("x", ⟨"x", "o", "torpedo", ⟨0, 0, 0⟩, ⟨1, 0, 0⟩, 1, 0, 0, 2, ⟨0, 0, 0⟩⟩)]).log
      = []
    ∧ (_update_projectiles_task (fun _ => 1) (fun _ => none) 1
        [("x", ⟨"x", "o", "torpedo", ⟨0, 0, 0⟩, ⟨1, 0, 0⟩, 1, 0, 0, 2, ⟨0, 0, 0⟩⟩)]).collided_ids
      = []
    ∧ (_update_projectiles_task (fun _ => 1) (fun _ => none) 1
        [("x", ⟨"x", "o", "torpedo", ⟨0, 0, 0⟩, ⟨1, 0, 0⟩, 1, 0, 0, 2, ⟨0, 0, 0⟩⟩)]).expired_ids
      = []
    ∧ akeys (_update_projectiles_task (fun _ => 1) (fun _ => none) 1
        [("x", ⟨"x", "o", "torpedo", ⟨0, 0, 0⟩, ⟨1, 0, 0⟩, 1, 0, 0, 2, ⟨0, 0, 0⟩⟩)]).projectiles
      = ["x"] :=
  ⟨by decide, by decide, by decide, by decide⟩

/-- C8 (amended): a checker that raises is caught: the projectile is not
collided, a checker-error log entry is emitted, the projectile survives
with its updated position, and every other projectile's expiry and
collision outcome is exactly as its own data dictates (the tick loop is
not aborted).  A projectile whose type has no registered checker never
collides, is removed exactly by normal expiry, and the missing checker is
logged only when `hash(projectile_id) % 100 == 0` (roughly 1% of the
time), never fatally. -/
theorem claim_C8_checker_fault_tolerance (hashFn : String → Nat)
    (checkers : String → Option Checker) (now : ℚ)
    (table : List (String × Proj)) (id : String) (p : Proj)
    (hnd : (akeys table).Nodup) (hmem : (id, p) ∈ table) :
    (∀ f msg, ¬now ≥ p.expires_at → checkers p.ptype = some f →
      f id (updateProjPosition now p) = Except.error msg →
      id ∉ (_update_projectiles_task hashFn checkers now table).collided_ids
      ∧ TickLog.checkerError id ∈ (_update_projectiles_task hashFn checkers now table).log
      ∧ alookup id (_update_projectiles_task hashFn checkers now table).projectiles
          = some (updateProjPosition now p)
      ∧ (∀ id₂ p₂, (id₂, p₂) ∈ table →
          (id₂ ∈ (_update_projectiles_task hashFn checkers now table).expired_ids
            ↔ now ≥ p₂.expires_at)
          ∧ (id₂ ∈ (_update_projectiles_task hashFn checkers now table).collided_ids
            ↔ collidesAt checkers now id₂ p₂)))
    ∧ (checkers p.ptype = none →
        id ∉ (_update_projectiles_task hashFn checkers now table).collided_ids
        ∧ (id ∈ (_update_projectiles_task hashFn checkers now table).expired_ids
            ↔ now ≥ p.expires_at)
        ∧ (alookup id (_update_projectiles_task hashFn checkers now table).projectiles
              = none
            ↔ now ≥ p.expires_at)
        ∧ (¬now ≥ p.expires_at → hashFn id % 100 = 0 →
            TickLog.missingCheckerWarning id
              ∈ (_update_projectiles_task hashFn checkers now table).log)) := by
  have hndScan : (akeys (scanProjectiles hashFn checkers now table).table).Nodup := by
    rw [scan_keys]
    exact hnd
  have hexpIff := scan_expired_iff hashFn checkers now table hnd id p hmem
  have hcolIff := scan_collided_iff hashFn checkers now table hnd id p hmem
  have hLookT : alookup id table = some p := alookup_of_mem_nodup hnd hmem
  have hScanLook : alookup id (scanProjectiles hashFn checkers now table).table
      = some (if now ≥ p.expires_at then p else updateProjPosition now p) := by
    rw [scan_table_alookup, hLookT]
    rfl
  have hRemove := removeAll_alookup
    (((scanProjectiles hashFn checkers now table).expired_ids
      ++ (scanProjectiles hashFn checkers now table).collided_ids).dedup)
    (scanProjectiles hashFn checkers now table).table hndScan id
  have hMemDedup : id ∈ (((scanProjectiles hashFn checkers now table).expired_ids
      ++ (scanProjectiles hashFn checkers now table).collided_ids).dedup)
      ↔ id ∈ (scanProjectiles hashFn checkers now table).expired_ids
        ∨ id ∈ (scanProjectiles hashFn checkers now table).collided_ids := by
    rw [List.mem_dedup, List.mem_append]
  constructor
  · intro f msg hexp hc herr
    have hnotcol : id ∉ (scanProjectiles hashFn checkers now table).collided_ids := by
      intro hcol
      obtain ⟨hne, f', hcf, hval⟩ := hcolIff.mp hcol
      rw [hc] at hcf
      cases Option.some.inj hcf
      rw [herr] at hval
      cases hval
    refine ⟨hnotcol, ?_, ?_, ?_⟩
    · refine scan_log_mem_entry hashFn checkers now table id p _ hmem ?_
      simp [processProjectile, hexp, hc, herr]
    · show alookup id (removeAll _ _) = _
      rw [hRemove,
        if_neg (fun hd => (hMemDedup.mp hd).elim
          (fun he => hexp (hexpIff.mp he)) hnotcol)]
      rw [hScanLook, if_neg hexp]
    · intro id₂ p₂ hm₂
      exact ⟨scan_expired_iff hashFn checkers now table hnd id₂ p₂ hm₂,
        scan_collided_iff hashFn checkers now table hnd id₂ p₂ hm₂⟩
  · intro hc
    have hnotcol : id ∉ (scanProjectiles hashFn checkers now table).collided_ids := by
      intro hcol
      obtain ⟨hne, f', hcf, hval⟩ := hcolIff.mp hcol
      rw [hc] at hcf
      cases hcf
    refine ⟨hnotcol, hexpIff, ?_, ?_⟩
    · constructor
      · intro hnone
        by_contra hnex
        have : alookup id
            (_update_projectiles_task hashFn checkers now table).projectiles
            = some (updateProjPosition now p) := by
          show alookup id (removeAll _ _) = _
          rw [hRemove,
            if_neg (fun hd => (hMemDedup.mp hd).elim
              (fun he => hnex (hexpIff.mp he)) hnotcol)]
          rw [hScanLook, if_neg hnex]
        rw [hnone] at this
        cases this
      · intro hexp
        show alookup id (removeAll _ _) = none
        rw [hRemove, if_pos (hMemDedup.mpr (Or.inl (hexpIff.mpr hexp)))]
    · intro hexp hh
      refine scan_log_mem_entry hashFn checkers now table id p _ hmem ?_
      simp [processProjectile, hexp, hc, hh]

/-- C8 witness: a live projectile of unregistered type "torpedo" with a
hash seed hitting the 1% sample: not collided, not removed, and the
missing-checker warning is in the log. -/
theorem claim_C8_checker_fault_tolerance_witness :
    "x" ∉ (_update_projectiles_task (fun _ => 0) (fun _ => none) 1
        [("x", ⟨"x", "o", "torpedo", ⟨0, 0, 0⟩, ⟨1, 0, 0⟩, 1, 0, 0, 2, ⟨0, 0, 0⟩⟩)]).collided_ids
    ∧ ("x" ∈ (_update_projectiles_task (fun _ => 0) (fun _ => none) 1
          [("x", ⟨"x", "o", "torpedo", ⟨0, 0, 0⟩, ⟨1, 0, 0⟩, 1, 0, 0, 2, ⟨0, 0, 0⟩⟩)]).expired_ids
        ↔ (1:ℚ) ≥ (⟨"x", "o", "torpedo", ⟨0, 0, 0⟩, ⟨1, 0, 0⟩, 1, 0, 0, 2,
            ⟨0, 0, 0⟩⟩ : Proj).expires_at)
    ∧ (alookup "x" (_update_projectiles_task (fun _ => 0) (fun _ => none) 1
          [("x", ⟨"x", "o", "torpedo", ⟨0, 0, 0⟩, ⟨1, 0, 0⟩, 1, 0, 0, 2, ⟨0, 0, 0⟩⟩)]).projectiles
          = none
        ↔ (1:ℚ) ≥ (⟨"x", "o", "torpedo", ⟨0, 0, 0⟩, ⟨1, 0, 0⟩, 1, 0, 0, 2,
            ⟨0, 0, 0⟩⟩ : Proj).expires_at)
    ∧ (¬(1:ℚ) ≥ (⟨"x", "o", "torpedo", ⟨0, 0, 0⟩, ⟨1, 0, 0⟩, 1, 0, 0, 2,
          ⟨0, 0, 0⟩⟩ : Proj).expires_at → (fun _ => 0 : String → Nat) "x" % 100 = 0 →
        TickLog.missingCheckerWarning "x"
          ∈ (_update_projectiles_task (fun _ => 0) (fun _ => none) 1
              [("x", ⟨"x", "o", "torpedo", ⟨0, 0, 0⟩, ⟨1, 0, 0⟩, 1, 0, 0, 2,
                ⟨0, 0, 0⟩⟩)]).log) :=
  (claim_C8_checker_fault_tolerance (fun _ => 0) (fun _ => none) 1
    [("x", ⟨"x", "o", "torpedo", ⟨0, 0, 0⟩, ⟨1, 0, 0⟩, 1, 0, 0, 2, ⟨0, 0, 0⟩⟩)]
    "x" ⟨"x", "o", "torpedo", ⟨0, 0, 0⟩, ⟨1, 0, 0⟩, 1, 0, 0, 2, ⟨0, 0, 0⟩⟩
    (by decide) (by decide)).2 rfl

/-- C2: `simulate_cannonball` returns position `p + d·s·t` with the vertical
component offset by `−½·g·t²`, and velocity with horizontal components `d·s`
and vertical component `d.y·s − g·t`; at the cannon scenario input
(position (0,1,0), direction (1,0,0), speed 100, gravity 0.0981, t = 0.5)
the position is (50, 1 − 0.0123, 0) up to the stated approximation (the
exact vertical drop is 0.01226250, within 10⁻⁴ of 0.0123). -/
theorem claim_C2_kinematics (p d : Vec3) (s g t : ℚ) :
    simulate_cannonball p d s g t =
      { position :=
          { x := p.x + d.x * s * t
            y := p.y + d.y * s * t - (1/2) * g * t^2
            z := p.z + d.z * s * t }
        velocity :=
          { x := d.x * s
            y := d.y * s - g * t
            z := d.z * s } }
    ∧ ((simulate_cannonball ⟨0, 1, 0⟩ ⟨1, 0, 0⟩ 100 (981/10000) (1/2)).position.x = 50
        ∧ (simulate_cannonball ⟨0, 1, 0⟩ ⟨1, 0, 0⟩ 100 (981/10000) (1/2)).position.z = 0
        ∧ |(simulate_cannonball ⟨0, 1, 0⟩ ⟨1, 0, 0⟩ 100 (981/10000) (1/2)).position.y
            - (1 - 123/10000)| < 1/10000) := by
  constructor
  · simp only [simulate_cannonball, simulate_projectile, CannonballSim.mk.injEq, Vec3.mk.injEq]
    ring_nf
    trivial
  · refine ⟨by norm_num [simulate_cannonball, simulate_projectile],
      by norm_num [simulate_cannonball, simulate_projectile],
      by norm_num [simulate_cannonball, simulate_projectile, abs]⟩

/-- C4: `damage_player` on a known active player sets health to
`max 0 (old − amount)` (never below the 0 floor) and returns the kill flag
exactly when the resulting health is 0; on an unknown or inactive player it
is a no-op returning `false`. -/
theorem claim_C4_damage (players : Players) (pid : String) (amount : ℚ)
    (src : Option String) :
    ((alookup pid players = none
        ∨ ∃ pl, alookup pid players = some pl ∧ pl.active.getD false = false) →
      damage_player players pid amount src = ⟨players, [], [], false⟩)
    ∧ (∀ pl, alookup pid players = some pl → pl.active.getD false = true →
        ∀ h, pl.health = some h →
        (damage_player players pid amount src).players
            = aset pid { pl with health := some (max 0 (h - amount)) } players
          ∧ (0:ℚ) ≤ max 0 (h - amount)
          ∧ ((damage_player players pid amount src).killed = true
              ↔ max 0 (h - amount) = 0)) := by
  constructor
  · rintro (hnone | ⟨pl, hlook, hact⟩)
    · simp [damage_player, hnone]
    · simp [damage_player, hlook, hact]
  · intro pl hlook hact h hh
    have hact' : ¬ pl.active.getD false = false := by simp [hact]
    refine ⟨?_, le_max_left _ _, ?_⟩
    · by_cases hk : h ≤ amount
      · simp [damage_player, hlook, hact', hh, hk]
      · simp [damage_player, hlook, hact', hh, hk]
    · by_cases hk : h ≤ amount
      · have hmax : max 0 (h - amount) = 0 := max_eq_left (sub_nonpos.mpr hk)
        simp [damage_player, hlook, hact', hh, hk, hmax]
      · have hklt : 0 < h - amount := sub_pos.mpr (not_le.mp hk)
        have hmax : max 0 (h - amount) = h - amount := max_eq_right hklt.le
        simp [damage_player, hlook, hact', hh, hk, hmax, hklt.ne']

/-- C4 witness: damaging the known active player "p" (health 30) by 50 kills
(health clamps to 0); damaging the inactive player "q" is a no-op. -/
theorem claim_C4_damage_witness :
    ((damage_player [("p", mkPlayer 30 true)] "p" 50 none).players
        = aset "p" { mkPlayer 30 true with health := some (max 0 (30 - 50)) }
            [("p", mkPlayer 30 true)]
      ∧ (0:ℚ) ≤ max 0 ((30:ℚ) - 50)
      ∧ ((damage_player [("p", mkPlayer 30 true)] "p" 50 none).killed = true
          ↔ max 0 ((30:ℚ) - 50) = 0))
    ∧ damage_player [("q", mkPlayer 30 false)] "q" 50 none
        = ⟨[("q", mkPlayer 30 false)], [], [], false⟩ :=
  ⟨(claim_C4_damage [("p", mkPlayer 30 true)] "p" 50 none).2 (mkPlayer 30 true)
      (by decide) (by decide) 30 rfl,
    (claim_C4_damage [("q", mkPlayer 30 false)] "q" 50 none).1
      (Or.inr ⟨mkPlayer 30 false, by decide, by decide⟩)⟩

/-- C6: for both weapon handlers, a second fire inside the cooldown window
is rejected with no new projectile, no change to any state (in particular
the recorded cooldown timestamp), and no broadcast; an accepted fire
overwrites the player's cooldown timestamp with the current time. -/
theorem claim_C6_cooldown (cst : CannonState) (hst : HarpoonState)
    (sqrtFn : ℚ → ℚ) (now : ℚ) (cdata : CannonFirePayload)
    (hdata : HarpoonFirePayload) (pid : String) :
    (∀ last, cdata.player_id = some pid →
      alookup pid cst.player_cooldowns = some last →
      now - last < CANNON_COOLDOWN →
      handle_cannon_fire cst now cdata = (cst, []))
    ∧ (cdata.player_id = some pid → ¬(pid = "" ∨ amem pid cst.players = false) →
        ¬(∃ last, alookup pid cst.player_cooldowns = some last
            ∧ now - last < CANNON_COOLDOWN) →
        alookup pid (handle_cannon_fire cst now cdata).1.player_cooldowns = some now)
    ∧ (hdata.player_id = some pid →
        now - (alookup pid hst.player_harpoon_cooldowns).getD 0 < HARPOON_COOLDOWN →
        handle_harpoon_fire sqrtFn hst now hdata = (hst, []))
    ∧ (∀ position direction, hdata.player_id = some pid →
        ¬(pid = "" ∨ amem pid hst.players = false) →
        hdata.position = some position → hdata.direction = some direction →
        sqrtFn (vecNormSq direction) ≠ 0 →
        ¬(now - (alookup pid hst.player_harpoon_cooldowns).getD 0 < HARPOON_COOLDOWN) →
        alookup pid (handle_harpoon_fire sqrtFn hst now hdata).1.player_harpoon_cooldowns
          = some now) := by
  refine ⟨?_, ?_, ?_, ?_⟩
  · intro last hpid hlast hcool
    by_cases hrej : pid = "" ∨ amem pid cst.players = false
    · simp only [handle_cannon_fire, hpid, if_pos hrej]
    · simp only [handle_cannon_fire, hpid, if_neg hrej, hlast, if_pos hcool]
  · intro hpid hval hnc
    cases hl : alookup pid cst.player_cooldowns with
    | some last =>
      have hnl : ¬(now - last < CANNON_COOLDOWN) := fun hc => hnc ⟨last, hl, hc⟩
      simp only [handle_cannon_fire, hpid, if_neg hval, hl, if_neg hnl, cannonFireAccept]
      exact alookup_aset_self _ _ _
    | none =>
      simp only [handle_cannon_fire, hpid, if_neg hval, hl, cannonFireAccept]
      exact alookup_aset_self _ _ _
  · intro hpid hcool
    by_cases hrej : pid = "" ∨ amem pid hst.players = false
    · simp only [handle_harpoon_fire, hpid, if_pos hrej]
    · simp only [handle_harpoon_fire, hpid, if_neg hrej]
      cases hpos : hdata.position with
      | none => simp only [hpos]
      | some position =>
        simp only [hpos]
        cases hdir : hdata.direction with
        | none => simp only [hdir]
        | some direction =>
          simp only [hdir]
          by_cases hz : sqrtFn (vecNormSq direction) = 0
          · simp only [if_pos hz]
          · simp only [if_neg hz, if_pos hcool]
  · intro position direction hpid hval hposition hdirection hz hncool
    simp only [handle_harpoon_fire, hpid, if_neg hval, hposition, hdirection,
      if_neg hz, if_neg hncool]
    exact alookup_aset_self _ _ _

/-- C6 witness: with cooldown 0.5s, a cannon re-fire 0.2s after the recorded
shot is rejected unchanged; a harpoon fire by a known player with no prior
cooldown at t = 10 records cooldown timestamp 10. -/
theorem claim_C6_cooldown_witness :
    handle_cannon_fire ⟨[("p", mkPlayer 100 true)], [("p", 10)], []⟩ (51/5)
        ⟨some "p", none, none⟩
      = (⟨[("p", mkPlayer 100 true)], [("p", 10)], []⟩, [])
    ∧ alookup "p"
        (handle_harpoon_fire (fun s => if s = 25 then 5 else 0)
          ⟨[("p", mkPlayer 100 true)], [], []⟩ 10
          ⟨some "p", some ⟨1, 2, 3⟩, some ⟨0, 3, 4⟩⟩).1.player_harpoon_cooldowns
      = some 10 :=
  ⟨(claim_C6_cooldown ⟨[("p", mkPlayer 100 true)], [("p", 10)], []⟩
      ⟨[("p", mkPlayer 100 true)], [], []⟩ (fun s => if s = 25 then 5 else 0) (51/5)
      ⟨some "p", none, none⟩ ⟨some "p", some ⟨1, 2, 3⟩, some ⟨0, 3, 4⟩⟩ "p").1
      10 rfl rfl (by norm_num [CANNON_COOLDOWN]),
    (claim_C6_cooldown ⟨[("p", mkPlayer 100 true)], [("p", 10)], []⟩
      ⟨[("p", mkPlayer 100 true)], [], []⟩ (fun s => if s = 25 then 5 else 0) 10
      ⟨some "p", none, none⟩ ⟨some "p", some ⟨1, 2, 3⟩, some ⟨0, 3, 4⟩⟩ "p").2.2.2
      ⟨1, 2, 3⟩ ⟨0, 3, 4⟩ rfl (by decide) rfl rfl (by norm_num [vecNormSq])
      (by norm_num [HARPOON_COOLDOWN])⟩

/-- C7 counterexample: the cannon handler accepts a fire request from a
known but INACTIVE player whose direction is the ZERO vector: it stores a
projectile, records a cooldown and emits a broadcast, so the claimed
rejection of inactive players and zero directions fails for the cannon. -/
theorem claim_C7_counterexample :
    (handle_cannon_fire ⟨[("p", mkPlayer 100 false)], [], []⟩ 10
        ⟨some "p", some ⟨0, 0, 0⟩, some ⟨0, 0, 0⟩⟩).1.cannons.length = 1
    ∧ alookup "p"
        (handle_cannon_fire ⟨[("p", mkPlayer 100 false)], [], []⟩ 10
          ⟨some "p", some ⟨0, 0, 0⟩, some ⟨0, 0, 0⟩⟩).1.player_cooldowns = some 10
    ∧ (handle_cannon_fire ⟨[("p", mkPlayer 100 false)], [], []⟩ 10
        ⟨some "p", some ⟨0, 0, 0⟩, some ⟨0, 0, 0⟩⟩).2
      = [Broadcast.cannon_fired "p" (some ⟨0, 0, 0⟩) (some ⟨0, 0, 0⟩)] :=
  ⟨rfl, rfl, rfl⟩

/-- C7 (amended): for both handlers a missing, empty or unknown player_id is
rejected silently (no state change, no broadcast); the harpoon handler
additionally rejects a direction of length zero and stores the direction
scaled by the reciprocal of its length (a unit vector when the square root
is exact); the cannon handler performs no direction validation and neither
handler consults the active flag (see the counterexample). -/
theorem claim_C7_fire_validation (cst : CannonState) (hst : HarpoonState)
    (sqrtFn : ℚ → ℚ) (now : ℚ) (cdata : CannonFirePayload)
    (hdata : HarpoonFirePayload) :
    (cdata.player_id = none → handle_cannon_fire cst now cdata = (cst, []))
    ∧ (∀ pid, cdata.player_id = some pid →
        (pid = "" ∨ amem pid cst.players = false) →
        handle_cannon_fire cst now cdata = (cst, []))
    ∧ (hdata.player_id = none → handle_harpoon_fire sqrtFn hst now hdata = (hst, []))
    ∧ (∀ pid, hdata.player_id = some pid →
        (pid = "" ∨ amem pid hst.players = false) →
        handle_harpoon_fire sqrtFn hst now hdata = (hst, []))
    ∧ (∀ pid direction, hdata.player_id = some pid → hdata.direction = some direction →
        sqrtFn (vecNormSq direction) = 0 →
        handle_harpoon_fire sqrtFn hst now hdata = (hst, []))
    ∧ (∀ pid position direction, hdata.player_id = some pid →
        ¬(pid = "" ∨ amem pid hst.players = false) →
        hdata.position = some position → hdata.direction = some direction →
        sqrtFn (vecNormSq direction) ≠ 0 →
        ¬(now - (alookup pid hst.player_harpoon_cooldowns).getD 0 < HARPOON_COOLDOWN) →
        alookup (mkProjectileId "harpoon" pid now)
            (handle_harpoon_fire sqrtFn hst now hdata).1.projectiles
          = some
            { id := mkProjectileId "harpoon" pid now, owner := pid,
              ptype := "harpoon", initial_position := position,
              direction := ⟨direction.x / sqrtFn (vecNormSq direction),
                direction.y / sqrtFn (vecNormSq direction),
                direction.z / sqrtFn (vecNormSq direction)⟩,
              speed := HARPOON_SPEED, gravity := 0, created_at := now,
              expires_at := now + HARPOON_LIFETIME, position := position }
        ∧ (sqrtFn (vecNormSq direction) * sqrtFn (vecNormSq direction)
              = vecNormSq direction →
            vecNormSq ⟨direction.x / sqrtFn (vecNormSq direction),
              direction.y / sqrtFn (vecNormSq direction),
              direction.z / sqrtFn (vecNormSq direction)⟩ = 1)) := by
  refine ⟨?_, ?_, ?_, ?_, ?_, ?_⟩
  · intro hpid
    simp only [handle_cannon_fire, hpid]
  · intro pid hpid hrej
    simp only [handle_cannon_fire, hpid, if_pos hrej]
  · intro hpid
    simp only [handle_harpoon_fire, hpid]
  · intro pid hpid hrej
    simp only [handle_harpoon_fire, hpid, if_pos hrej]
  · intro pid direction hpid hdir hz
    by_cases hrej : pid = "" ∨ amem pid hst.players = false
    · simp only [handle_harpoon_fire, hpid, if_pos hrej]
    · simp only [handle_harpoon_fire, hpid, if_neg hrej]
      cases hpos : hdata.position with
      | none => simp only [hpos]
      | some position => simp only [hpos, hdir, if_pos hz]
  · intro pid position direction hpid hval hposition hdirection hz hncool
    constructor
    · simp only [handle_harpoon_fire, hpid, if_neg hval, hposition, hdirection,
        if_neg hz, if_neg hncool, add_projectile]
      exact alookup_aset_self _ _ _
    · intro hLsq
      have hS : vecNormSq direction ≠ 0 := by
        rw [← hLsq]
        exact mul_ne_zero hz hz
      have hexp : vecNormSq
          ⟨direction.x / sqrtFn (vecNormSq direction),
            direction.y / sqrtFn (vecNormSq direction),
            direction.z / sqrtFn (vecNormSq direction)⟩
          = vecNormSq direction
            / (sqrtFn (vecNormSq direction) * sqrtFn (vecNormSq direction)) := by
        simp only [vecNormSq]
        ring
      rw [hexp, hLsq]
      exact div_self hS

/-- C7 amended-claim witness: a fire with no player id is rejected, and an
accepted harpoon fire with direction (0,3,4) (length 5) stores the
normalized direction (0, 3/5, 4/5), a unit vector. -/
theorem claim_C7_fire_validation_witness :
    handle_cannon_fire ⟨[], [], []⟩ 0 ⟨none, none, none⟩ = (⟨[], [], []⟩, [])
    ∧ (alookup (mkProjectileId "harpoon" "p" 10)
          (handle_harpoon_fire (fun s => if s = 25 then 5 else 0)
            ⟨[("p", mkPlayer 100 true)], [], []⟩ 10
            ⟨some "p", some ⟨1, 2, 3⟩, some ⟨0, 3, 4⟩⟩).1.projectiles
        = some
          { id := mkProjectileId "harpoon" "p" 10, owner := "p",
            ptype := "harpoon", initial_position := ⟨1, 2, 3⟩,
            direction := ⟨(0:ℚ) / (if (vecNormSq ⟨0, 3, 4⟩ : ℚ) = 25 then 5 else 0),
              (3:ℚ) / (if (vecNormSq ⟨0, 3, 4⟩ : ℚ) = 25 then 5 else 0),
              (4:ℚ) / (if (vecNormSq ⟨0, 3, 4⟩ : ℚ) = 25 then 5 else 0)⟩,
            speed := HARPOON_SPEED, gravity := 0, created_at := 10,
            expires_at := 10 + HARPOON_LIFETIME, position := ⟨1, 2, 3⟩ }
      ∧ ((fun s => if s = (25:ℚ) then (5:ℚ) else 0) (vecNormSq ⟨0, 3, 4⟩)
            * (fun s => if s = (25:ℚ) then (5:ℚ) else 0) (vecNormSq ⟨0, 3, 4⟩)
            = vecNormSq ⟨0, 3, 4⟩ →
          vecNormSq ⟨(0:ℚ) / (if (vecNormSq ⟨0, 3, 4⟩ : ℚ) = 25 then 5 else 0),
            (3:ℚ) / (if (vecNormSq ⟨0, 3, 4⟩ : ℚ) = 25 then 5 else 0),
            (4:ℚ) / (if (vecNormSq ⟨0, 3, 4⟩ : ℚ) = 25 then 5 else 0)⟩ = 1)) :=
  ⟨(claim_C7_fire_validation ⟨[], [], []⟩ ⟨[], [], []⟩ (fun _ => 0) 0
      ⟨none, none, none⟩ ⟨none, none, none⟩).1 rfl,
    (claim_C7_fire_validation ⟨[], [], []⟩ ⟨[("p", mkPlayer 100 true)], [], []⟩
      (fun s => if s = 25 then 5 else 0) 10 ⟨none, none, none⟩
      ⟨some "p", some ⟨1, 2, 3⟩, some ⟨0, 3, 4⟩⟩).2.2.2.2.2 "p" ⟨1, 2, 3⟩ ⟨0, 3, 4⟩
      rfl (by decide) rfl rfl (by norm_num [vecNormSq])
      (by norm_num [HARPOON_COOLDOWN])⟩

/-- C9: every modelled operation that can change a health value (join cache
update, damage, cannon hit handling, cannon collision handling, defeat,
respawn) preserves the invariant that each stored health lies in 0..100;
the damage amount is the deducted quantity, hence nonnegative. -/
theorem claim_C9_health_range (players : Players) (cst : CannonState)
    (pid dpid vpid rpid docid hit : String) (amount : ℚ) (src : Option String)
    (now : ℚ) (hitData : CannonHitPayload) (cannon : Cannon) (base : Player) :
    (HealthInv players → HealthInv (playerJoinCache players docid base))
    ∧ (HealthInv players → 0 ≤ amount →
        HealthInv (damage_player players pid amount src).players)
    ∧ (HealthInv cst.players → HealthInv (handle_cannon_hit cst now hitData).1.players)
    ∧ (HealthInv players → HealthInv (handle_cannon_collision players cannon hit).1)
    ∧ (HealthInv players → HealthInv (handle_player_defeat players dpid vpid).1)
    ∧ (HealthInv players → ∀ res, respawn_player players rpid = some res →
        HealthInv res.1) :=
  ⟨playerJoinCache_HealthInv players docid base,
    fun hinv hamt => damage_player_HealthInv players pid amount src hinv hamt,
    fun hinv => handle_cannon_hit_HealthInv cst now hitData hinv,
    fun hinv => handle_cannon_collision_HealthInv players cannon hit hinv,
    fun hinv => handle_player_defeat_HealthInv players dpid vpid
      (fun pid' pl hl _ => hinv pid' pl hl),
    fun hinv res hres => respawn_player_HealthInv players rpid res hres hinv⟩

/-- C9 witness: a client-reported cannon hit on player "b" with health 5
(which drives the raw subtraction below zero and then respawns at 100)
preserves the 0..100 invariant, as does a damage call of 10 on "b". -/
theorem claim_C9_health_range_witness :
    HealthInv (handle_cannon_hit
        ⟨[("a", mkPlayer 100 true), ("b", mkPlayer 5 true)], [],
          [("c1", ⟨"c1", "a", none, none, 0, 3⟩)]⟩ 1
        ⟨some "a", some "c1", some "b", none⟩).1.players
    ∧ HealthInv (damage_player [("a", mkPlayer 100 true), ("b", mkPlayer 5 true)]
        "b" 10 none).players :=
  ⟨(claim_C9_health_range [("a", mkPlayer 100 true), ("b", mkPlayer 5 true)]
      ⟨[("a", mkPlayer 100 true), ("b", mkPlayer 5 true)], [],
        [("c1", ⟨"c1", "a", none, none, 0, 3⟩)]⟩
      "b" "b" "a" "b" "b" "b" 10 none 1 ⟨some "a", some "c1", some "b", none⟩
      ⟨"c1", "a", none, none, 0, 3⟩ (mkPlayer 100 true)).2.2.1
      (HealthInv_of_all _ (by decide)),
    (claim_C9_health_range [("a", mkPlayer 100 true), ("b", mkPlayer 5 true)]
      ⟨[("a", mkPlayer 100 true), ("b", mkPlayer 5 true)], [],
        [("c1", ⟨"c1", "a", none, none, 0, 3⟩)]⟩
      "b" "b" "a" "b" "b" "b" 10 none 1 ⟨some "a", some "c1", some "b", none⟩
      ⟨"c1", "a", none, none, 0, 3⟩ (mkPlayer 100 true)).2.1
      (HealthInv_of_all _ (by decide)) (by norm_num)⟩

/-- C3: for a known player and a complete payload, a durable write happens
if and only if the elapsed time since the last durable write strictly
exceeds `DB_UPDATE_INTERVAL` AND (no position was ever durably recorded for
the player, or the squared Euclidean distance from the last durably written
position strictly exceeds 20² — exactly 20 units does not qualify); a first
movement update always writes (given wall-clock time exceeds the 2-second
interval measured from the epoch default 0); and the last-durable position
and timestamp are updated exactly when a write occurs.  The history
hypothesis `hhist` records that previously stored durable positions carry a
`y` (the handler itself would raise otherwise). -/
theorem claim_C3_durable_write (st : AppState) (now : ℚ) (data : UPPayload)
    (pid : String) (x y z : ℚ) (pl : Player)
    (hpid : data.player_id = some pid) (hpid0 : ¬pid = "")
    (hx : data.x = some x) (hy : data.y = some y) (hz : data.z = some z)
    (hpl : alookup pid st.players = some pl)
    (hhist : ∀ lp, alookup pid st.last_db_positions = some lp → ∃ ly, lp.y = some ly) :
    ((handle_position_update st now data).wrote_db = true
      ↔ (now - (alookup pid st.last_db_update).getD 0 > DB_UPDATE_INTERVAL
          ∧ (alookup pid st.last_db_positions = none
              ∨ ∃ lp ly, alookup pid st.last_db_positions = some lp ∧ lp.y = some ly
                  ∧ (x - lp.x) * (x - lp.x) + (y - ly) * (y - ly)
                      + (z - lp.z) * (z - lp.z)
                    > MIN_POSITION_UPDATE_DISTANCE * MIN_POSITION_UPDATE_DISTANCE)))
    ∧ (alookup pid st.last_db_positions = none → alookup pid st.last_db_update = none →
        now > DB_UPDATE_INTERVAL → (handle_position_update st now data).wrote_db = true)
    ∧ ((handle_position_update st now data).wrote_db = false →
        (handle_position_update st now data).state.last_db_update = st.last_db_update
        ∧ (handle_position_update st now data).state.last_db_positions
            = st.last_db_positions)
    ∧ ((handle_position_update st now data).wrote_db = true →
        (handle_position_update st now data).state.last_db_update
            = aset pid now st.last_db_update
        ∧ (handle_position_update st now data).state.last_db_positions
            = aset pid ⟨x, some y, z⟩ st.last_db_positions) := by
  refine ⟨?_, ?_, ?_, ?_⟩
  · cases hlp : alookup pid st.last_db_positions with
    | none =>
      simp only [handle_position_update, hpid, if_neg hpid0, hx, hz, hpl, hy, hlp]
      by_cases htime : now - (alookup pid st.last_db_update).getD 0 > DB_UPDATE_INTERVAL
      · simp [htime]
      · simp [htime]
    | some lp =>
      obtain ⟨ly, hly⟩ := hhist lp hlp
      simp only [handle_position_update, hpid, if_neg hpid0, hx, hz, hpl, hy, hlp, hly]
      by_cases htime : now - (alookup pid st.last_db_update).getD 0 > DB_UPDATE_INTERVAL
      · by_cases hdist : (x - lp.x) * (x - lp.x) + (y - ly) * (y - ly)
            + (z - lp.z) * (z - lp.z)
            > MIN_POSITION_UPDATE_DISTANCE * MIN_POSITION_UPDATE_DISTANCE
        · simp [htime, hdist, hly]
        · simp [htime, hdist, hly]
      · by_cases hdist : (x - lp.x) * (x - lp.x) + (y - ly) * (y - ly)
            + (z - lp.z) * (z - lp.z)
            > MIN_POSITION_UPDATE_DISTANCE * MIN_POSITION_UPDATE_DISTANCE
        · simp [htime, hdist, hly]
        · simp [htime, hdist, hly]
  · intro hlp hldu htime
    simp only [handle_position_update, hpid, if_neg hpid0, hx, hz, hpl, hy, hlp]
    have hcond : now - (alookup pid st.last_db_update).getD 0 > DB_UPDATE_INTERVAL := by
      rw [hldu]
      simpa using htime
    simp [hcond]
  · cases hlp : alookup pid st.last_db_positions with
    | none =>
      simp only [handle_position_update, hpid, if_neg hpid0, hx, hz, hpl, hy, hlp]
      split
      · intro h; simp at h
      · intro _; exact ⟨rfl, rfl⟩
    | some lp =>
      obtain ⟨ly, hly⟩ := hhist lp hlp
      simp only [handle_position_update, hpid, if_neg hpid0, hx, hz, hpl, hy, hlp, hly]
      split
      · intro h; simp at h
      · intro _; exact ⟨rfl, rfl⟩
  · cases hlp : alookup pid st.last_db_positions with
    | none =>
      simp only [handle_position_update, hpid, if_neg hpid0, hx, hz, hpl, hy, hlp]
      split
      · intro _; exact ⟨rfl, rfl⟩
      · intro h; simp at h
    | some lp =>
      obtain ⟨ly, hly⟩ := hhist lp hlp
      simp only [handle_position_update, hpid, if_neg hpid0, hx, hz, hpl, hy, hlp, hly]
      split
      · intro _; exact ⟨rfl, rfl⟩
      · intro h; simp at h

/-- C3 witness: at t = 10 (last write at t = 0, last durable position the
origin), a move to (30, 0, 0) (distance 30 > 20) writes durably and records
position and timestamp. -/
theorem claim_C3_durable_write_witness :
    ((handle_position_update
        ⟨[("p", mkPlayer 100 true)], [("p", 0)], [("p", ⟨0, some 0, 0⟩)]⟩ 10
        ⟨some "p", some 30, some 0, some 0, none, none⟩).wrote_db = true
      ↔ ((10:ℚ) - (alookup "p" [("p", (0:ℚ))]).getD 0 > DB_UPDATE_INTERVAL
          ∧ (alookup "p" [("p", (⟨0, some 0, 0⟩ : CachedPos))] = none
              ∨ ∃ lp ly, alookup "p" [("p", (⟨0, some 0, 0⟩ : CachedPos))] = some lp
                  ∧ lp.y = some ly
                  ∧ ((30:ℚ) - lp.x) * (30 - lp.x) + ((0:ℚ) - ly) * (0 - ly)
                      + ((0:ℚ) - lp.z) * (0 - lp.z)
                    > MIN_POSITION_UPDATE_DISTANCE * MIN_POSITION_UPDATE_DISTANCE)))
    ∧ ((handle_position_update
        ⟨[("p", mkPlayer 100 true)], [("p", 0)], [("p", ⟨0, some 0, 0⟩)]⟩ 10
        ⟨some "p", some 30, some 0, some 0, none, none⟩).wrote_db = true →
        (handle_position_update
          ⟨[("p", mkPlayer 100 true)], [("p", 0)], [("p", ⟨0, some 0, 0⟩)]⟩ 10
          ⟨some "p", some 30, some 0, some 0, none, none⟩).state.last_db_update
            = aset "p" 10 [("p", 0)]
        ∧ (handle_position_update
            ⟨[("p", mkPlayer 100 true)], [("p", 0)], [("p", ⟨0, some 0, 0⟩)]⟩ 10
            ⟨some "p", some 30, some 0, some 0, none, none⟩).state.last_db_positions
            = aset "p" ⟨30, some 0, 0⟩ [("p", ⟨0, some 0, 0⟩)]) :=
  ⟨(claim_C3_durable_write
      ⟨[("p", mkPlayer 100 true)], [("p", 0)], [("p", ⟨0, some 0, 0⟩)]⟩ 10
      ⟨some "p", some 30, some 0, some 0, none, none⟩ "p" 30 0 0 (mkPlayer 100 true)
      rfl (by decide) rfl rfl rfl (by decide)
      (fun lp hlp => ⟨0, by cases Option.some.inj hlp; rfl⟩)).1,
    (claim_C3_durable_write
      ⟨[("p", mkPlayer 100 true)], [("p", 0)], [("p", ⟨0, some 0, 0⟩)]⟩ 10
      ⟨some "p", some 30, some 0, some 0, none, none⟩ "p" 30 0 0 (mkPlayer 100 true)
      rfl (by decide) rfl rfl rfl (by decide)
      (fun lp hlp => ⟨0, by cases Option.some.inj hlp; rfl⟩)).2.2.2⟩

/-- C10 counterexample: a payload missing only `y` for a known first-time
player is NOT dropped: the cache position is overwritten (with a `None` y),
a `player_moved` broadcast goes out, and a durable write happens — the
claimed required-coordinate validation of `y` does not exist in the code
(only `x` and `z` are checked). -/
theorem claim_C10_counterexample :
    (handle_position_update ⟨[("p", mkPlayer 100 true)], [], []⟩ 10
        ⟨some "p", some 0, none, some 0, none, none⟩).wrote_db = true
    ∧ (handle_position_update ⟨[("p", mkPlayer 100 true)], [], []⟩ 10
        ⟨some "p", some 0, none, some 0, none, none⟩).broadcasts
      = [Broadcast.player_moved "p" ⟨0, none, 0⟩ none none]
    ∧ (alookup "p" (handle_position_update ⟨[("p", mkPlayer 100 true)], [], []⟩ 10
          ⟨some "p", some 0, none, some 0, none, none⟩).state.players).map
        Player.position
      = some (some ⟨0, none, 0⟩) := by
  refine ⟨?_, ?_, ?_⟩ <;>
    norm_num [handle_position_update, alookup, aset, mkPlayer, DB_UPDATE_INTERVAL] <;>
    decide

/-- C10 (amended): an update-position payload missing `x` or `z` (the only
coordinates the handler validates) is logged and silently dropped with no
state change, no broadcast, no durable write and no crash; a payload
missing only `y` is not rejected (see the counterexample). -/
theorem claim_C10_missing_coordinate (st : AppState) (now : ℚ) (data : UPPayload)
    (hmiss : data.x = none ∨ data.z = none) :
    handle_position_update st now data = ⟨st, [], false, false⟩ := by
  cases hpid : data.player_id with
  | none => simp only [handle_position_update, hpid]
  | some pid =>
    by_cases hpid0 : pid = ""
    · simp only [handle_position_update, hpid, if_pos hpid0]
    · cases hx : data.x with
      | none =>
        cases hz : data.z with
        | none => simp only [handle_position_update, hpid, if_neg hpid0, hx, hz]
        | some z => simp only [handle_position_update, hpid, if_neg hpid0, hx, hz]
      | some x =>
        cases hz : data.z with
        | none => simp only [handle_position_update, hpid, if_neg hpid0, hx, hz]
        | some z =>
          rcases hmiss with hm | hm
          · rw [hx] at hm; cases hm
          · rw [hz] at hm; cases hm

/-- C10 amended-claim witness: a payload with `x` missing is dropped
without any effect. -/
theorem claim_C10_missing_coordinate_witness :
    handle_position_update ⟨[("p", mkPlayer 100 true)], [], []⟩ 10
        ⟨some "p", none, some 1, some 2, none, none⟩
      = ⟨⟨[("p", mkPlayer 100 true)], [], []⟩, [], false, false⟩ :=
  claim_C10_missing_coordinate ⟨[("p", mkPlayer 100 true)], [], []⟩ 10
    ⟨some "p", none, some 1, some 2, none, none⟩ (Or.inl rfl)

/-- C5: when damage drives a known active player's health to exactly 0, the
call reports a kill, emits exactly one `player_defeated` broadcast, and
schedules exactly one respawn timer with a 3-second delay; firing that timer
(`delayed_respawn` → `respawn_player`) emits exactly one `player_respawned`
broadcast and resets the player's health to 100.  The source has no
cancellation path for the scheduled task, and the death path emits no second
defeat broadcast before the respawn runs. -/
theorem claim_C5_death_respawn (players : Players) (pid : String) (amount : ℚ)
    (src : Option String) (pl : Player)
    (hlook : alookup pid players = some pl) (hact : pl.active.getD false = true)
    (h : ℚ) (hh : pl.health = some h) (hpos : 0 < h) (hkill : h ≤ amount) :
    (damage_player players pid amount src).killed = true
    ∧ (damage_player players pid amount src).broadcasts
        = [Broadcast.player_defeated pid src]
    ∧ (damage_player players pid amount src).timers = [(pid, 3)]
    ∧ alookup pid (damage_player players pid amount src).players
        = some { pl with health := some 0 }
    ∧ respawn_player (damage_player players pid amount src).players pid
        = some
          (aset pid { pl with health := some DEFAULT_HEALTH }
            (damage_player players pid amount src).players,
          [Broadcast.player_respawned pid DEFAULT_HEALTH])
    ∧ alookup pid
        (aset pid { pl with health := some DEFAULT_HEALTH }
          (damage_player players pid amount src).players)
        = some { pl with health := some DEFAULT_HEALTH } := by
  have hact' : ¬ pl.active.getD false = false := by simp [hact]
  have hmax : max 0 (h - amount) = 0 :=
    max_eq_left (sub_nonpos.mpr hkill)
  have hres : damage_player players pid amount src
      = ⟨aset pid { pl with health := some 0 } players,
        [Broadcast.player_defeated pid src], [(pid, 3)], true⟩ := by
    simp only [damage_player, hlook, hact', if_false, hh, Option.getD_some, hmax]
    simp [handle_player_death, amem, alookup_aset_self]
  rw [hres]
  refine ⟨rfl, rfl, rfl, alookup_aset_self _ _ _, ?_, alookup_aset_self _ _ _⟩
  simp only [respawn_player, alookup_aset_self]

/-- C5 witness: the active player "p" with health 40 damaged by 40 dies,
emits one defeat broadcast, schedules a 3-second respawn timer, and the
respawn resets health to 100 with one respawn broadcast. -/
theorem claim_C5_death_respawn_witness :
    (damage_player [("p", mkPlayer 40 true)] "p" 40 (some "k")).killed = true
    ∧ (damage_player [("p", mkPlayer 40 true)] "p" 40 (some "k")).broadcasts
        = [Broadcast.player_defeated "p" (some "k")]
    ∧ (damage_player [("p", mkPlayer 40 true)] "p" 40 (some "k")).timers = [("p", 3)]
    ∧ alookup "p" (damage_player [("p", mkPlayer 40 true)] "p" 40 (some "k")).players
        = some { mkPlayer 40 true with health := some 0 }
    ∧ respawn_player
        (damage_player [("p", mkPlayer 40 true)] "p" 40 (some "k")).players "p"
        = some
          (aset "p" { mkPlayer 40 true with health := some DEFAULT_HEALTH }
            (damage_player [("p", mkPlayer 40 true)] "p" 40 (some "k")).players,
          [Broadcast.player_respawned "p" DEFAULT_HEALTH])
    ∧ alookup "p"
        (aset "p" { mkPlayer 40 true with health := some DEFAULT_HEALTH }
          (damage_player [("p", mkPlayer 40 true)] "p" 40 (some "k")).players)
        = some { mkPlayer 40 true with health := some DEFAULT_HEALTH } :=
  claim_C5_death_respawn [("p", mkPlayer 40 true)] "p" 40 (some "k")
    (mkPlayer 40 true) (by decide) (by decide) 40 rfl (by norm_num) (by norm_num)

end Tidefall
